import Mathlib

/-!
Shallow embedding of the contact-constrained forward-dynamics core of the
repository (file src/src/Contacts.cc) and verification of the frozen claims.

Modelling conventions.

* Machine doubles are modelled as exact rationals; "up to linear-solver
  tolerance" in the spec becomes exact equality against abstract solver
  functions that are assumed exact on the concrete systems they are given.
* The external collaborators declared in spec section 6 (InverseDynamics,
  CompositeRigidBodyAlgorithm, ForwardDynamics with and without external
  forces, CalcPointJacobian, CalcPointAcceleration, CalcBodyToBaseCoordinates,
  the Eigen linear solvers) and the spatial-algebra helpers of mathutils.h
  (crossf, spatial_adjoint, Xtrans_mat) are not part of src/.  They are
  modelled from the spec as abstract function fields of `DynEnv`; the
  UpdateKinematics / UpdateKinematicsCustom calls followed by Calc...(..., false)
  are modelled as pure evaluation of the Calc function at the state the code
  synchronises to, per the signatures of spec section 6.
* The external Model is modelled by `RBModel`: per-body quantities that the
  unconstrained dynamics pass leaves behind (lambda, S, U, d, c, v, a, tau,
  spatial inertia, the spatial transforms X_lambda and X_base in the several
  forms the code consumes, gravity, and the per-body qddot scratch).  The
  check `mJoints[i].mJointType == JointTypeFixed` is modelled by the boolean
  field `jointFixed`.
* A C assert is a fatal precondition violation; a function of the source that
  can hit one on its inputs is embedded with an Option result and returns
  `none` in exactly those cases.  The source checks contact normals inside its
  loops and aborts on the first bad one; since an abort discards all outputs,
  this is embedded as an up-front test of all normals.
* Dynamically sized Eigen vectors and matrices become total functions over
  `Fin` types (sizes `dof`, `m` are parameters) or over `ℕ` for body-indexed
  arrays of size `model.mBodies.size()` (written `nb` below).  Loops become
  structural recursions or folds in iteration order.
-/

namespace RBDLContacts

open Matrix

abbrev Vec3 := Fin 3 → ℚ

abbrev SpatialVec := Fin 6 → ℚ

abbrev SpatialMat := Matrix (Fin 6) (Fin 6) ℚ

/-- The three admissible world contact normals (Contacts.cc lines 156-161). -/
def vecX : Vec3 := ![1, 0, 0]

def vecY : Vec3 := ![0, 1, 0]

def vecZ : Vec3 := ![0, 0, 1]

/-- The axis-selection chain of Contacts.cc lines 152-163 (also 186-196 and
299-310): the row index chosen for a contact normal, `none` when the normal is
not one of the three positive coordinate axes (the `assert (0 && "Invalid
contact normal axis!")` case). -/
def axisIndex (n : Vec3) : Option (Fin 3) :=
  if n = vecX then some 0
  else if n = vecY then some 1
  else if n = vecZ then some 2
  else none

/-- The selectable linear solver of a ConstraintSet (spec section 3): `lu`
models LinearSolverPartialPivLU, `qr` models LinearSolverColPivHouseholderQR. -/
inductive LinSolver where
  | lu : LinSolver
  | qr : LinSolver
deriving DecidableEq

/-- Abstract collaborator environment, modelled from the spec (section 6): the
unconstrained-dynamics and kinematics operations together with the Eigen
solver backends and the spatial-algebra helpers.  `invDyn Q QDot QDDot` is the
bias-force output of InverseDynamics, `crba Q` the mass matrix, `fwdDyn` the
plain recursive forward dynamics, `fwdDynF` the overload taking a per-body
external spatial-force array, `solveLU n A b` and `solveQR n A b` the two
direct solvers applied to an n-by-n system. -/
structure DynEnv (dof : ℕ) where
  invDyn : (Fin dof → ℚ) → (Fin dof → ℚ) → (Fin dof → ℚ) → Fin dof → ℚ
  crba : (Fin dof → ℚ) → Matrix (Fin dof) (Fin dof) ℚ
  pointJacobian : (Fin dof → ℚ) → ℕ → Vec3 → Matrix (Fin 3) (Fin dof) ℚ
  pointAccel : (Fin dof → ℚ) → (Fin dof → ℚ) → (Fin dof → ℚ) → ℕ → Vec3 → Vec3
  bodyToBase : (Fin dof → ℚ) → ℕ → Vec3 → Vec3
  fwdDyn : (Fin dof → ℚ) → (Fin dof → ℚ) → (Fin dof → ℚ) → Fin dof → ℚ
  fwdDynF : (Fin dof → ℚ) → (Fin dof → ℚ) → (Fin dof → ℚ) → (ℕ → SpatialVec) → Fin dof → ℚ
  solveLU : (n : ℕ) → Matrix (Fin n) (Fin n) ℚ → (Fin n → ℚ) → Fin n → ℚ
  solveQR : (n : ℕ) → Matrix (Fin n) (Fin n) ℚ → (Fin n → ℚ) → Fin n → ℚ
  spatialAdjoint : SpatialMat → SpatialMat
  xtransMat : Vec3 → SpatialMat
  crossf : SpatialVec → SpatialVec → SpatialVec

/-- The external Model as read (and, for `qddot`, written) by the constraint
core: per-body parent index, fixed-joint flag, motion subspace `S`,
articulated quantities `U`, `d`, `c`, body velocity `v`, base acceleration
`a`, per-body torque scratch `tau`, spatial inertia, the transform
`X_lambda[i]` in its `apply`, `toMatrix` and `toMatrixTranspose` forms, the
matrix of `X_base[i]`, gravity and the per-body `qddot` scratch. -/
structure RBModel where
  lambda : ℕ → ℕ
  jointFixed : ℕ → Bool
  S : ℕ → SpatialVec
  U : ℕ → SpatialVec
  d : ℕ → ℚ
  c : ℕ → SpatialVec
  v : ℕ → SpatialVec
  a : ℕ → SpatialVec
  tau : ℕ → ℚ
  inertia : ℕ → SpatialMat
  XlApply : ℕ → SpatialVec → SpatialVec
  XlMat : ℕ → SpatialMat
  XlMatT : ℕ → SpatialMat
  XbaseMat : ℕ → SpatialMat
  gravity : Vec3
  qddot : ℕ → ℚ

/-- Legacy ContactInfo value (spec section 3), used by the legacy path and the
impulse solver: body id, body-frame point, world normal, desired (or target)
scalar along the normal, and the force/impulse output field. -/
structure ContactInfo where
  body_id : ℕ
  point : Vec3
  normal : Vec3
  acceleration : ℚ
  force : ℚ
deriving DecidableEq

/-- Registration-phase view of a ConstraintSet: the growable parallel arrays
plus the `bound` flag.  `AddConstraint` (Contacts.cc lines 28-54) operates on
this phase; `Bind` freezes it into the sized workspace `ConstraintSet`. -/
structure ConstraintSetReg where
  bound : Bool
  name : List String
  body : List ℕ
  point : List Vec3
  normal : List Vec3
  constraint_acceleration : List ℚ
  constraint_force : List ℚ
deriving DecidableEq

/-- Number of registered constraints.  The member `size()` is declared in the
header (not part of src/); modelled from the spec (section 4.1): it equals the
length of every parallel constraint array. -/
def ConstraintSetReg.size (cs : ConstraintSetReg) : ℕ :=
  cs.constraint_acceleration.length

/-- The parallel-array invariant of the registry (spec section 3). -/
def ConstraintSetReg.parallel (cs : ConstraintSetReg) : Prop :=
  cs.name.length = cs.constraint_acceleration.length ∧
  cs.body.length = cs.constraint_acceleration.length ∧
  cs.point.length = cs.constraint_acceleration.length ∧
  cs.normal.length = cs.constraint_acceleration.length ∧
  cs.constraint_force.length = cs.constraint_acceleration.length

instance (cs : ConstraintSetReg) : Decidable cs.parallel := by
  unfold ConstraintSetReg.parallel
  infer_instance

/-- ConstraintSet::AddConstraint, Contacts.cc lines 28-54.  The
`assert (bound == false)` at line 34 is the precondition violation (`none`).
A NULL constraint name becomes the empty string.  Returns the updated registry
and the new constraint index `n_constr - 1`. -/
def ConstraintSetReg.AddConstraint (cs : ConstraintSetReg) (body_id : ℕ)
    (body_point : Vec3) (world_normal : Vec3) (constraint_name : Option String)
    (acceleration : ℚ) : Option (ConstraintSetReg × ℕ) :=
  if cs.bound then none
  else
    let name_str := constraint_name.getD ""
    let n_constr := cs.constraint_acceleration.length + 1
    some ({ cs with
              name := cs.name ++ [name_str]
              body := cs.body ++ [body_id]
              point := cs.point ++ [body_point]
              normal := cs.normal ++ [world_normal]
              constraint_acceleration := cs.constraint_acceleration ++ [acceleration]
              constraint_force := cs.constraint_force ++ [(0 : ℚ)] },
          n_constr - 1)

/-- Bound-phase ConstraintSet: the constraint definitions as `Fin m`-indexed
functions plus every workspace buffer allocated by `Bind` (Contacts.cc lines
56-88).  Body-indexed buffers (`f_ext_constraints` and the `d_` scratch, sized
`model.mBodies.size()` in the source) are total functions on `ℕ`. -/
@[ext]
structure ConstraintSet (dof m : ℕ) where
  linear_solver : LinSolver
  name : Fin m → String
  body : Fin m → ℕ
  point : Fin m → Vec3
  normal : Fin m → Vec3
  constraint_acceleration : Fin m → ℚ
  constraint_force : Fin m → ℚ
  H : Matrix (Fin dof) (Fin dof) ℚ
  C : Fin dof → ℚ
  gamma : Fin m → ℚ
  G : Matrix (Fin m) (Fin dof) ℚ
  A : Matrix (Fin (dof + m)) (Fin (dof + m)) ℚ
  b : Fin (dof + m) → ℚ
  x : Fin (dof + m) → ℚ
  K : Matrix (Fin m) (Fin m) ℚ
  a : Fin m → ℚ
  QDDot_t : Fin dof → ℚ
  QDDot_0 : Fin dof → ℚ
  f_t : Fin m → SpatialVec
  f_ext_constraints : ℕ → SpatialVec
  point_accel_0 : Fin m → Vec3
  d_pA : ℕ → SpatialVec
  d_a : ℕ → SpatialVec
  d_u : ℕ → ℚ
  d_IA : ℕ → SpatialMat
  d_U : ℕ → SpatialVec
  d_d : ℕ → ℚ

/-- Shared zero value for dof-or-constraint-indexed rational vectors. -/
def zeroVec (k : ℕ) : Fin k → ℚ := fun _ => 0

/-- Shared zero value for body-indexed spatial-vector arrays. -/
def zeroSpatialArr : ℕ → SpatialVec := fun _ _ => 0

/-- Shared zero value for body-indexed scalar arrays. -/
def zeroScalArr : ℕ → ℚ := fun _ => 0

/-- Shared zero value for constraint-indexed spatial vectors. -/
def zeroSpatialFin (m : ℕ) : Fin m → SpatialVec := fun _ _ => 0

/-- Shared zero value for constraint-indexed 3-vectors. -/
def zeroVec3Fin (m : ℕ) : Fin m → Vec3 := fun _ _ => 0

/-- ConstraintSet::Bind, Contacts.cc lines 56-88, combined with the transition
from the registration phase: every workspace buffer is freshly sized and
zeroed (`conservativeResize` grows from size 0, `f_t`, `f_ext_constraints`,
`point_accel_0`, `d_pA`, `d_a`, `d_U` are filled with zero vectors, `d_u` and
`d_d` with zeros, and `d_IA` with SpatialMatrixIdentity, lines 73-83), and the
constraint definitions are taken over from the registry arrays in order. -/
def bindWorkspace (dof m : ℕ) (solver : LinSolver) (reg : ConstraintSetReg) :
    ConstraintSet dof m :=
  { linear_solver := solver
    name := fun i => reg.name.getD i ""
    body := fun i => reg.body.getD i 0
    point := fun i => reg.point.getD i (fun _ => 0)
    normal := fun i => reg.normal.getD i (fun _ => 0)
    constraint_acceleration := fun i => reg.constraint_acceleration.getD i 0
    constraint_force := fun i => reg.constraint_force.getD i 0
    H := 0
    C := zeroVec dof
    gamma := zeroVec m
    G := 0
    A := 0
    b := zeroVec (dof + m)
    x := zeroVec (dof + m)
    K := 0
    a := zeroVec m
    QDDot_t := zeroVec dof
    QDDot_0 := zeroVec dof
    f_t := zeroSpatialFin m
    f_ext_constraints := zeroSpatialArr
    point_accel_0 := zeroVec3Fin m
    d_pA := zeroSpatialArr
    d_a := zeroSpatialArr
    d_u := zeroScalArr
    d_IA := fun _ => 1
    d_U := zeroSpatialArr
    d_d := zeroScalArr }

/-- ConstraintSet::clear, Contacts.cc lines 90-124: zeroes
`constraint_acceleration`, `constraint_force`, `H`, `C`, `gamma`, `G`, `A`,
`b`, `x`, `K`, `a`, `QDDot_t`, `QDDot_0`, `f_t`, `f_ext_constraints`,
`point_accel_0`, `d_pA`, `d_a` and `d_u`.  It does not touch the constraint
definition arrays `name`, `body`, `point`, `normal`, nor the scratch buffers
`d_IA`, `d_U`, `d_d`. -/
def ConstraintSet.clear {dof m : ℕ} (cs : ConstraintSet dof m) :
    ConstraintSet dof m :=
  { cs with
    constraint_acceleration := zeroVec m
    constraint_force := zeroVec m
    H := 0
    C := zeroVec dof
    gamma := zeroVec m
    G := 0
    A := 0
    b := zeroVec (dof + m)
    x := zeroVec (dof + m)
    K := 0
    a := zeroVec m
    QDDot_t := zeroVec dof
    QDDot_0 := zeroVec dof
    f_t := zeroSpatialFin m
    f_ext_constraints := zeroSpatialArr
    point_accel_0 := zeroVec3Fin m
    d_pA := zeroSpatialArr
    d_a := zeroSpatialArr
    d_u := zeroScalArr }

/-! ### Dense KKT solver (ForwardDynamicsContactsLagrangian) and impulse solver -/

/-- State of the Jacobian caching loop (Contacts.cc lines 147-150): the last
`(body, point)` pair for which `Gi` was computed.  `Gi` is an uninitialised
Eigen matrix in the source; it is modelled as zero. -/
structure JacCache (dof : ℕ) where
  prevBody : ℕ
  prevPoint : Vec3
  Gi : Matrix (Fin 3) (Fin dof) ℚ

/-- One iteration of the Jacobian loop (Contacts.cc lines 152-175, identically
lines 299-322 of the impulse solver): recompute `Gi` by CalcPointJacobian only
when the `(body, point)` pair changed, then copy the row selected by the
normal axis into row `i` of `G`. -/
def jacRowsStep {dof m : ℕ} (env : DynEnv dof) (Q : Fin dof → ℚ)
    (bodyF : Fin m → ℕ) (pointF : Fin m → Vec3) (axF : Fin m → Fin 3)
    (s : JacCache dof × Matrix (Fin m) (Fin dof) ℚ) (i : Fin m) :
    JacCache dof × Matrix (Fin m) (Fin dof) ℚ :=
  let cache :=
    if s.1.prevBody = bodyF i ∧ s.1.prevPoint = pointF i then s.1
    else ⟨bodyF i, pointF i, env.pointJacobian Q (bodyF i) (pointF i)⟩
  ⟨cache, Matrix.updateRow s.2 i (fun j => cache.Gi (axF i) j)⟩

/-- The constraint Jacobian `G` assembled by the caching loop, starting from
`prev_body_id = 0`, `prev_body_point = 0` (Contacts.cc lines 148-149). -/
def jacRows {dof m : ℕ} (env : DynEnv dof) (Q : Fin dof → ℚ)
    (bodyF : Fin m → ℕ) (pointF : Fin m → Vec3) (axF : Fin m → Fin 3) :
    Matrix (Fin m) (Fin dof) ℚ :=
  ((List.finRange m).foldl (jacRowsStep env Q bodyF pointF axF)
    ⟨⟨0, fun _ => 0, 0⟩, 0⟩).2

/-- State of the bias-acceleration caching loop (Contacts.cc lines 178-180):
last `(body, point)` pair and the cached point acceleration `gamma_i`
(initialised to zero in the source). -/
structure AccCache where
  prevBody : ℕ
  prevPoint : Vec3
  acc : Vec3

/-- One iteration of the gamma loop (Contacts.cc lines 185-208): recompute the
point acceleration at `QDDot_0` only when the `(body, point)` pair changed,
then store its axis component minus the desired constraint acceleration. -/
def gammaStep {dof m : ℕ} (env : DynEnv dof) (Q QDot qdd : Fin dof → ℚ)
    (bodyF : Fin m → ℕ) (pointF : Fin m → Vec3) (axF : Fin m → Fin 3)
    (accelF : Fin m → ℚ) (s : AccCache × (Fin m → ℚ)) (i : Fin m) :
    AccCache × (Fin m → ℚ) :=
  let cache :=
    if s.1.prevBody = bodyF i ∧ s.1.prevPoint = pointF i then s.1
    else ⟨bodyF i, pointF i, env.pointAccel Q QDot qdd (bodyF i) (pointF i)⟩
  ⟨cache, Function.update s.2 i (cache.acc (axF i) - accelF i)⟩

/-- The bias-acceleration vector gamma assembled by the caching loop. -/
def gammaVals {dof m : ℕ} (env : DynEnv dof) (Q QDot qdd : Fin dof → ℚ)
    (bodyF : Fin m → ℕ) (pointF : Fin m → Vec3) (axF : Fin m → Fin 3)
    (accelF : Fin m → ℚ) : Fin m → ℚ :=
  ((List.finRange m).foldl (gammaStep env Q QDot qdd bodyF pointF axF accelF)
    ⟨⟨0, fun _ => 0, fun _ => 0⟩, fun _ => 0⟩).2

/-- The augmented matrix `A` of Contacts.cc lines 210-228: `A` is zeroed, then
the copy loops write the disjoint index ranges `A[i,j] = H[i,j]` (both below
`dof`), `A[dof+i,j] = G[i,j]` and `A[j,dof+i] = G[i,j]`; the lower-right
`m`-by-`m` block keeps its zeros. -/
def kktMatrix {dof m : ℕ} (H : Matrix (Fin dof) (Fin dof) ℚ)
    (G : Matrix (Fin m) (Fin dof) ℚ) :
    Matrix (Fin (dof + m)) (Fin (dof + m)) ℚ :=
  fun r c =>
    Fin.addCases
      (fun i => Fin.addCases (fun j => H i j) (fun j => G j i) c)
      (fun i => Fin.addCases (fun j => G i j) (fun _ => 0) c) r

/-- The right-hand side of Contacts.cc lines 230-238:
`b[i] = -C[i] + Tau[i]` for `i < dof` and `b[dof+i] = -gamma[i]`. -/
def kktRhs {dof m : ℕ} (Tau C : Fin dof → ℚ) (gamma : Fin m → ℚ) :
    Fin (dof + m) → ℚ :=
  fun r => Fin.addCases (fun i => -(C i) + Tau i) (fun i => -(gamma i)) r

/-- The solver dispatch of Contacts.cc lines 244-255 (and 866-877): the
strategy selected in the ConstraintSet picks one of the two Eigen backends. -/
def selSolve {dof : ℕ} (env : DynEnv dof) (s : LinSolver) :
    (n : ℕ) → Matrix (Fin n) (Fin n) ℚ → (Fin n → ℚ) → Fin n → ℚ :=
  match s with
  | .lu => env.solveLU
  | .qr => env.solveQR

/-- Axis index actually used for constraint `i` once validity is known. -/
def axOf {m : ℕ} (normalF : Fin m → Vec3) (i : Fin m) : Fin 3 :=
  (axisIndex (normalF i)).getD 0

/-- The bias-force vector `C` of the Lagrangian solver: InverseDynamics at
`QDDot_0 = 0` (Contacts.cc lines 136-137). -/
def lagrangianC {dof : ℕ} (env : DynEnv dof) (Q QDot : Fin dof → ℚ) :
    Fin dof → ℚ :=
  env.invDyn Q QDot (zeroVec dof)

/-- The constraint Jacobian of the Lagrangian solver (Contacts.cc 144-175). -/
def lagrangianG {dof m : ℕ} (env : DynEnv dof) (Q : Fin dof → ℚ)
    (CS : ConstraintSet dof m) : Matrix (Fin m) (Fin dof) ℚ :=
  jacRows env Q CS.body CS.point (axOf CS.normal)

/-- The gamma vector of the Lagrangian solver (Contacts.cc 177-208), evaluated
at `QDDot_0 = 0`. -/
def lagrangianGamma {dof m : ℕ} (env : DynEnv dof) (Q QDot : Fin dof → ℚ)
    (CS : ConstraintSet dof m) : Fin m → ℚ :=
  gammaVals env Q QDot (zeroVec dof) CS.body CS.point (axOf CS.normal)
    CS.constraint_acceleration

/-- The assembled augmented matrix of the Lagrangian solver. -/
def lagrangianA {dof m : ℕ} (env : DynEnv dof) (Q : Fin dof → ℚ)
    (CS : ConstraintSet dof m) : Matrix (Fin (dof + m)) (Fin (dof + m)) ℚ :=
  kktMatrix (env.crba Q) (lagrangianG env Q CS)

/-- The assembled right-hand side of the Lagrangian solver. -/
def lagrangianB {dof m : ℕ} (env : DynEnv dof) (Q QDot Tau : Fin dof → ℚ)
    (CS : ConstraintSet dof m) : Fin (dof + m) → ℚ :=
  kktRhs Tau (lagrangianC env Q QDot) (lagrangianGamma env Q QDot CS)

/-- The solution vector `x` of the Lagrangian solver, produced by the selected
solver (Contacts.cc lines 244-255). -/
def lagrangianX {dof m : ℕ} (env : DynEnv dof) (Q QDot Tau : Fin dof → ℚ)
    (CS : ConstraintSet dof m) : Fin (dof + m) → ℚ :=
  selSolve env CS.linear_solver (dof + m) (lagrangianA env Q CS)
    (lagrangianB env Q QDot Tau CS)

/-- ForwardDynamicsContactsLagrangian, Contacts.cc lines 126-271.  Returns the
joint accelerations (copied from the first `dof` entries of `x`, lines
264-265) and the per-constraint forces (copied from the remaining `m` entries
into `constraint_force`, lines 268-270); `none` when some constraint normal is
not a positive coordinate axis (the asserts at lines 163 and 196). -/
def ForwardDynamicsContactsLagrangian {dof m : ℕ} (env : DynEnv dof)
    (Q QDot Tau : Fin dof → ℚ) (CS : ConstraintSet dof m) :
    Option ((Fin dof → ℚ) × (Fin m → ℚ)) :=
  if ∀ i : Fin m, (axisIndex (CS.normal i)).isSome then
    some (fun j => lagrangianX env Q QDot Tau CS (Fin.castAdd m j),
          fun i => lagrangianX env Q QDot Tau CS (Fin.natAdd dof i))
  else none

/-- The contact Jacobian of the impulse solver (Contacts.cc lines 289-322),
the same caching loop over the caller's contact list. -/
def impulseG {dof m : ℕ} (env : DynEnv dof) (Q : Fin dof → ℚ)
    (cd : Fin m → ContactInfo) : Matrix (Fin m) (Fin dof) ℚ :=
  jacRows env Q (fun i => (cd i).body_id) (fun i => (cd i).point)
    (axOf (fun i => (cd i).normal))

/-- The augmented matrix of the impulse solver (Contacts.cc lines 327-345). -/
def impulseA {dof m : ℕ} (env : DynEnv dof) (Q : Fin dof → ℚ)
    (cd : Fin m → ContactInfo) : Matrix (Fin (dof + m)) (Fin (dof + m)) ℚ :=
  kktMatrix (env.crba Q) (impulseG env Q cd)

/-- The right-hand side of the impulse solver (Contacts.cc lines 324-355):
`H * QDotMinus` on top, each contact's target velocity below. -/
def impulseB {dof m : ℕ} (env : DynEnv dof) (Q QDotMinus : Fin dof → ℚ)
    (cd : Fin m → ContactInfo) : Fin (dof + m) → ℚ :=
  fun r =>
    Fin.addCases (fun i => (env.crba Q).mulVec QDotMinus i)
      (fun i => (cd i).acceleration) r

/-- The solution of the impulse system, always by the column-pivoted QR
backend (Contacts.cc line 359, no solver switch). -/
def impulseX {dof m : ℕ} (env : DynEnv dof) (Q QDotMinus : Fin dof → ℚ)
    (cd : Fin m → ContactInfo) : Fin (dof + m) → ℚ :=
  env.solveQR (dof + m) (impulseA env Q cd) (impulseB env Q QDotMinus cd)

/-- ComputeContactImpulsesLagrangian, Contacts.cc lines 273-374.  Returns
`QDotPlus` (first `dof` entries of `x`, lines 366-367) and the contact list
with impulses written into the `force` fields (lines 370-372); `none` when
some contact normal is invalid (assert at line 310). -/
def ComputeContactImpulsesLagrangian {dof m : ℕ} (env : DynEnv dof)
    (Q QDotMinus : Fin dof → ℚ) (cd : Fin m → ContactInfo) :
    Option ((Fin dof → ℚ) × (Fin m → ContactInfo)) :=
  if ∀ i : Fin m, (axisIndex ((cd i).normal)).isSome then
    some (fun j => impulseX env Q QDotMinus cd (Fin.castAdd m j),
          fun i => { cd i with force := impulseX env Q QDotMinus cd (Fin.natAdd dof i) })
  else none

/-! ### Compliance / superposition engine -/

/-- The three per-body scratch arrays written by the delta-propagation pass
(`d_pA`, `d_a`, `d_u` of the ConstraintSet). -/
structure DeltaScratch where
  d_pA : ℕ → SpatialVec
  d_a : ℕ → SpatialVec
  d_u : ℕ → ℚ

/-- Extension of a `dof`-sized buffer to a total function (the Eigen buffer
with out-of-range entries, never read back, modelled as zero). -/
def extendV (dof : ℕ) (v : Fin dof → ℚ) : ℕ → ℚ :=
  fun n => if h : n < dof then v ⟨n, h⟩ else 0

/-- One iteration `i` of the inward loop of ForwardDynamicsAccelerationDeltas
(Contacts.cc lines 642-653): seed `d_pA` at the force's body, set
`d_u[i] = -S[i].dot(d_pA[i])`, and propagate to the parent when it is not the
root. -/
def deltasInwardStep (env : DynEnv dof) (mdl : RBModel) (body_id : ℕ)
    (f_t : ℕ → SpatialVec) (i : ℕ) (s : DeltaScratch) : DeltaScratch :=
  let seed : SpatialVec :=
    fun k => -(((env.spatialAdjoint (mdl.XbaseMat i)).mulVec (f_t i)) k)
  let s1 := if i = body_id then { s with d_pA := Function.update s.d_pA i seed } else s
  let dui := -(mdl.S i ⬝ᵥ s1.d_pA i)
  let s2 := { s1 with d_u := Function.update s1.d_u i dui }
  let prop : SpatialVec :=
    fun k => s2.d_pA (mdl.lambda i) k +
      ((mdl.XlMatT i).mulVec (fun r => s2.d_pA i r + mdl.U i r * dui / mdl.d i)) k
  if mdl.lambda i ≠ 0 then
    { s2 with d_pA := Function.update s2.d_pA (mdl.lambda i) prop }
  else s2

/-- The inward loop `for i = body_id; i > 0; i--` of
ForwardDynamicsAccelerationDeltas. -/
def deltasInward (env : DynEnv dof) (mdl : RBModel) (body_id : ℕ)
    (f_t : ℕ → SpatialVec) : ℕ → DeltaScratch → DeltaScratch
  | 0, s => s
  | k + 1, s =>
    deltasInward env mdl body_id f_t k
      (deltasInwardStep env mdl body_id f_t (k + 1) s)

/-- One iteration `i` of the outward loop of ForwardDynamicsAccelerationDeltas
(Contacts.cc lines 669-678): `Xa = X_lambda[i].apply(d_a[lambda])`,
`QDDot_t[i-1] = (d_u[i] - U[i].dot(Xa)) / d[i]`,
`d_a[i] = Xa + S[i] * QDDot_t[i-1]`.  The state carries the QDDot_t buffer and
the `d_a` scratch. -/
def deltasOutwardStep (mdl : RBModel) (du : ℕ → ℚ) (i : ℕ)
    (s : (ℕ → ℚ) × (ℕ → SpatialVec)) : (ℕ → ℚ) × (ℕ → SpatialVec) :=
  let Xa := mdl.XlApply i (s.2 (mdl.lambda i))
  let qi := (du i - mdl.U i ⬝ᵥ Xa) / mdl.d i
  ⟨Function.update s.1 (i - 1) qi,
   Function.update s.2 i (fun k => Xa k + mdl.S i k * qi)⟩

/-- The outward loop `for i = 1; i < model.mBodies.size(); i++` of
ForwardDynamicsAccelerationDeltas; `deltasOutward mdl du k s` processes
`i = 1 .. k` in order. -/
def deltasOutward (mdl : RBModel) (du : ℕ → ℚ) :
    ℕ → ((ℕ → ℚ) × (ℕ → SpatialVec)) → ((ℕ → ℚ) × (ℕ → SpatialVec))
  | 0, s => s
  | k + 1, s => deltasOutwardStep mdl du (k + 1) (deltasOutward mdl du k s)

/-- ForwardDynamicsAccelerationDeltas, Contacts.cc lines 622-679, for a model
with `nb = model.mBodies.size()` bodies and `dof` degrees of freedom.  The
pass first zeroes the `d_pA`, `d_a`, `d_u` scratch (lines 636-640, so the
scratch state at entry is irrelevant and is not a parameter), runs the inward
loop from `body_id` down to 1, sets `QDDot_t[0] = 0` and `d_a[0] = model.a[0]`
(lines 666-667) and runs the outward loop over all bodies.  `buf` is the
caller's QDDot_t buffer (entries the outward loop does not write keep their
buffer values). -/
def ForwardDynamicsAccelerationDeltas (env : DynEnv dof) (mdl : RBModel)
    (nb : ℕ) (body_id : ℕ) (f_t : ℕ → SpatialVec) (buf : Fin dof → ℚ) :
    (Fin dof → ℚ) × DeltaScratch :=
  let z : DeltaScratch := ⟨fun _ _ => 0, fun _ _ => 0, fun _ => 0⟩
  let s1 := deltasInward env mdl body_id f_t body_id z
  let start : (ℕ → ℚ) × (ℕ → SpatialVec) :=
    ⟨Function.update (extendV dof buf) 0 0,
     Function.update (fun _ _ => 0) 0 (mdl.a 0)⟩
  let res := deltasOutward mdl s1.d_u (nb - 1) start
  ⟨fun j => res.1 j.val, { d_pA := s1.d_pA, d_a := res.2, d_u := s1.d_u }⟩

/-- The six per-body scratch arrays of the ConstraintSet as consumed by
ForwardDynamicsApplyConstraintForces. -/
structure BodyScratch where
  d_pA : ℕ → SpatialVec
  d_a : ℕ → SpatialVec
  d_u : ℕ → ℚ
  d_IA : ℕ → SpatialMat
  d_U : ℕ → SpatialVec
  d_d : ℕ → ℚ

/-- The initialisation loop of ForwardDynamicsApplyConstraintForces
(Contacts.cc lines 394-403), `d_pA` component: each body `1 <= i < nb` gets
`crossf(v[i], I[i] v[i])`, minus `spatial_adjoint(X_base[i]) * f_ext[i]` when
that external force is nonzero.  The loop iterations are independent, so it is
written pointwise. -/
def applyFirstPA (env : DynEnv dof) (mdl : RBModel) (nb : ℕ)
    (fext : ℕ → SpatialVec) (s_pA : ℕ → SpatialVec) : ℕ → SpatialVec :=
  fun i =>
    if 1 ≤ i ∧ i < nb then
      fun k =>
        env.crossf (mdl.v i) ((mdl.inertia i).mulVec (mdl.v i)) k -
          (if fext i ≠ (fun _ => (0 : ℚ)) then
            ((env.spatialAdjoint (mdl.XbaseMat i)).mulVec (fext i)) k
          else 0)
    else s_pA i

/-- The initialisation loop of ForwardDynamicsApplyConstraintForces, `d_IA`
component (line 396): `d_IA[i] = mSpatialInertia[i]`. -/
def applyFirstIA (mdl : RBModel) (nb : ℕ) (s_IA : ℕ → SpatialMat) :
    ℕ → SpatialMat :=
  fun i => if 1 ≤ i ∧ i < nb then mdl.inertia i else s_IA i

/-- One iteration `i` of the inward pass of ForwardDynamicsApplyConstraintForces
(Contacts.cc lines 405-424): fixed joints are skipped; otherwise
`d_U[i] = d_IA[i] * S[i]`, `d_d[i] = S[i].dot(U[i])` (the source reads the
model's `U`, not `d_U`), `d_u[i] = tau[i] - S[i].dot(d_pA[i])`, and for a
non-root parent the articulated quantities are propagated. -/
def applyInwardStep (mdl : RBModel) (i : ℕ) (s : BodyScratch) : BodyScratch :=
  if mdl.jointFixed i then s
  else
    let dU := (s.d_IA i).mulVec (mdl.S i)
    let dd := mdl.S i ⬝ᵥ mdl.U i
    let du := mdl.tau i - mdl.S i ⬝ᵥ s.d_pA i
    let s1 := { s with
      d_U := Function.update s.d_U i dU
      d_d := Function.update s.d_d i dd
      d_u := Function.update s.d_u i du }
    if mdl.lambda i ≠ 0 then
      let Ia := s.d_IA i - Matrix.vecMulVec dU (fun k => dU k / dd)
      let pa := fun k => s.d_pA i k + (Ia.mulVec (mdl.c i)) k + dU k * du / dd
      { s1 with
        d_IA := Function.update s1.d_IA (mdl.lambda i)
          (s1.d_IA (mdl.lambda i) + mdl.XlMatT i * Ia * mdl.XlMat i)
        d_pA := Function.update s1.d_pA (mdl.lambda i)
          (fun k => s1.d_pA (mdl.lambda i) k + ((mdl.XlMatT i).mulVec pa) k) }
    else s1

/-- The inward pass `for i = mBodies.size() - 1; i > 0; i--`;
`applyInward mdl k s` processes `i = k .. 1`. -/
def applyInward (mdl : RBModel) : ℕ → BodyScratch → BodyScratch
  | 0, s => s
  | k + 1, s => applyInward mdl k (applyInwardStep mdl (k + 1) s)

/-- The spatial gravity vector of Contacts.cc line 449. -/
def spatialGravity (mdl : RBModel) : SpatialVec :=
  ![0, 0, 0, mdl.gravity 0, mdl.gravity 1, mdl.gravity 2]

/-- State of the outward pass of ForwardDynamicsApplyConstraintForces: the
body scratch, the caller's QDDot buffer (as a total function) and the model's
per-body `qddot` scratch. -/
structure ApplyState where
  scr : BodyScratch
  q : ℕ → ℚ
  mq : ℕ → ℚ

/-- One iteration `i` of the outward pass (Contacts.cc lines 451-471):
`d_a[i]` is propagated from the parent (or from gravity at the root); a fixed
joint sets `model.qddot[i] = 0` and leaves the caller's QDDot buffer alone;
otherwise `QDDot[i-1] = (d_u[i] - U[i].dot(d_a[i])) / d[i]` (the source reads
the model's `U` and `d`) and `d_a[i]` accumulates `S[i] * QDDot[i-1]`. -/
def applyOutwardStep (mdl : RBModel) (i : ℕ) (s : ApplyState) : ApplyState :=
  let dai :=
    if mdl.lambda i = 0 then
      fun k => mdl.XlApply i (fun r => -(spatialGravity mdl r)) k + mdl.c i k
    else
      fun k => mdl.XlApply i (s.scr.d_a (mdl.lambda i)) k + mdl.c i k
  if mdl.jointFixed i then
    { scr := { s.scr with d_a := Function.update s.scr.d_a i dai }
      q := s.q
      mq := Function.update s.mq i 0 }
  else
    let qi := (s.scr.d_u i - mdl.U i ⬝ᵥ dai) / mdl.d i
    let daf : SpatialVec := fun k => dai k + mdl.S i k * qi
    { scr := { s.scr with d_a := Function.update s.scr.d_a i daf }
      q := Function.update s.q (i - 1) qi
      mq := s.mq }

/-- The outward pass `for i = 1; i < mBodies.size(); i++`;
`applyOutward mdl k s` processes `i = 1 .. k`. -/
def applyOutward (mdl : RBModel) : ℕ → ApplyState → ApplyState
  | 0, s => s
  | k + 1, s => applyOutwardStep mdl (k + 1) (applyOutward mdl k s)

/-- ForwardDynamicsApplyConstraintForces, Contacts.cc lines 383-472: the
initialisation loop, the inward pass and the outward pass over the scratch
`s`, the caller's QDDot buffer `buf` and the model's `qddot` scratch.  Returns
the written QDDot buffer, the final body scratch and the final model `qddot`
scratch. -/
def ForwardDynamicsApplyConstraintForces (env : DynEnv dof) (mdl : RBModel)
    (nb : ℕ) (fext : ℕ → SpatialVec) (s : BodyScratch) (buf : Fin dof → ℚ) :
    (Fin dof → ℚ) × BodyScratch × (ℕ → ℚ) :=
  let s0 := { s with
    d_pA := applyFirstPA env mdl nb fext s.d_pA
    d_IA := applyFirstIA mdl nb s.d_IA }
  let s1 := applyInward mdl (nb - 1) s0
  let res := applyOutward mdl (nb - 1)
    { scr := s1, q := extendV dof buf, mq := mdl.qddot }
  ⟨fun j => res.q j.val, res.scr, res.mq⟩

/-- The unit test force of constraint `ci` (Contacts.cc lines 761-765): a pure
linear force `(0,0,0,-normal)` moved to the contact point's base coordinates
by `spatial_adjoint(Xtrans_mat(-point_global))`. -/
def testForce (env : DynEnv dof) (Q : Fin dof → ℚ) (b : ℕ) (p n : Vec3) :
    SpatialVec :=
  let pg := env.bodyToBase Q b p
  (env.spatialAdjoint (env.xtransMat (fun k => -(pg k)))).mulVec
    ![0, 0, 0, -(n 0), -(n 1), -(n 2)]

/-- State carried by the test-force loop of ForwardDynamicsContacts: the
`f_ext_constraints` array, the `f_t` array, the compliance matrix `K`, the
QDDot_t buffer and the delta scratch. -/
structure CCState (dof m : ℕ) where
  fext : ℕ → SpatialVec
  f_t : Fin m → SpatialVec
  K : Matrix (Fin m) (Fin m) ℚ
  buf : Fin dof → ℚ
  ds : DeltaScratch

/-- One iteration `ci` of the test-force loop of ForwardDynamicsContacts
(Contacts.cc lines 751-860): build the test force, place it in
`f_ext_constraints[body]`, run the delta-propagation pass, zero the entry
again, add `QDDot_0` to the returned deltas (line 779), and fill row `ci` of
`K` with `normal[cj].dot(point_accel_t - point_accel_0[cj])` (line 795). -/
def fdcStep (env : DynEnv dof) (mdl : RBModel) (nb : ℕ)
    (Q QDot qdd0 : Fin dof → ℚ) (bodyF : Fin m → ℕ) (pointF : Fin m → Vec3)
    (normalF : Fin m → Vec3) (pa0 : Fin m → Vec3) (st : CCState dof m)
    (ci : Fin m) : CCState dof m :=
  let fti := testForce env Q (bodyF ci) (pointF ci) (normalF ci)
  let fext1 := Function.update st.fext (bodyF ci) fti
  let dres := ForwardDynamicsAccelerationDeltas env mdl nb (bodyF ci) fext1 st.buf
  let fext2 := Function.update fext1 (bodyF ci) (fun _ => 0)
  let qtot : Fin dof → ℚ := fun j => dres.1 j + qdd0 j
  { fext := fext2
    f_t := Function.update st.f_t ci fti
    K := Matrix.updateRow st.K ci
      (fun cj => normalF cj ⬝ᵥ
        (fun k => env.pointAccel Q QDot qtot (bodyF cj) (pointF cj) k - pa0 cj k))
    buf := qtot
    ds := dres.2 }

/-- Baseline accelerations of the compliance engine: one plain forward
dynamics pass (Contacts.cc line 717). -/
def complianceQDDot0 (env : DynEnv dof) (Q QDot Tau : Fin dof → ℚ) :
    Fin dof → ℚ :=
  env.fwdDyn Q QDot Tau

/-- Baseline point accelerations of the compliance engine (Contacts.cc lines
729-747; the loop iterations are independent and are written pointwise). -/
def compliancePA0 (env : DynEnv dof) (Q QDot Tau : Fin dof → ℚ)
    (bodyF : Fin m → ℕ) (pointF : Fin m → Vec3) : Fin m → Vec3 :=
  fun ci =>
    env.pointAccel Q QDot (complianceQDDot0 env Q QDot Tau) (bodyF ci) (pointF ci)

/-- Residuals `a[ci] = acceleration - normal.dot(point_accel_0[ci])` of the
compliance engine (Contacts.cc line 744). -/
def complianceARes (env : DynEnv dof) (Q QDot Tau : Fin dof → ℚ)
    (bodyF : Fin m → ℕ) (pointF : Fin m → Vec3) (normalF : Fin m → Vec3)
    (accelF : Fin m → ℚ) : Fin m → ℚ :=
  fun ci => accelF ci - normalF ci ⬝ᵥ compliancePA0 env Q QDot Tau bodyF pointF ci

/-- The test-force loop of ForwardDynamicsContacts run over all constraints in
index order, starting from the ConstraintSet's buffers.  Note that the source
reset loop for `f_ext_constraints` at lines 722-724 is commented out, so the
loop starts from the array as the ConstraintSet holds it. -/
def complianceFold (env : DynEnv dof) (mdl : RBModel) (nb : ℕ)
    (Q QDot Tau : Fin dof → ℚ) (CS : ConstraintSet dof m) : CCState dof m :=
  (List.finRange m).foldl
    (fdcStep env mdl nb Q QDot (complianceQDDot0 env Q QDot Tau) CS.body
      CS.point CS.normal (compliancePA0 env Q QDot Tau CS.body CS.point))
    { fext := CS.f_ext_constraints
      f_t := CS.f_t
      K := CS.K
      buf := CS.QDDot_t
      ds := ⟨CS.d_pA, CS.d_a, CS.d_u⟩ }

/-- The compliance matrix computed by the engine. -/
def complianceK (env : DynEnv dof) (mdl : RBModel) (nb : ℕ)
    (Q QDot Tau : Fin dof → ℚ) (CS : ConstraintSet dof m) :
    Matrix (Fin m) (Fin m) ℚ :=
  (complianceFold env mdl nb Q QDot Tau CS).K

/-- The constraint forces of the compliance engine: the selected solver
applied to `K f = a` (Contacts.cc lines 865-881). -/
def complianceForce (env : DynEnv dof) (mdl : RBModel) (nb : ℕ)
    (Q QDot Tau : Fin dof → ℚ) (CS : ConstraintSet dof m) : Fin m → ℚ :=
  selSolve env CS.linear_solver m (complianceK env mdl nb Q QDot Tau CS)
    (complianceARes env Q QDot Tau CS.body CS.point CS.normal
      CS.constraint_acceleration)

/-- The accumulated external-force set of the final superposition step
(Contacts.cc lines 885-890): `f_ext_constraints[body] += f_t[ci] * force[ci]`. -/
def complianceFext (env : DynEnv dof) (mdl : RBModel) (nb : ℕ)
    (Q QDot Tau : Fin dof → ℚ) (CS : ConstraintSet dof m) : ℕ → SpatialVec :=
  (List.finRange m).foldl
    (fun g ci =>
      Function.update g (CS.body ci)
        (fun k => g (CS.body ci) k +
          (complianceFold env mdl nb Q QDot Tau CS).f_t ci k *
            complianceForce env mdl nb Q QDot Tau CS ci))
    (complianceFold env mdl nb Q QDot Tau CS).fext

/-- Result of a compliance-engine solve: the joint accelerations, the updated
ConstraintSet, and the model's `qddot` scratch. -/
structure FDCResult (dof m : ℕ) where
  QDDot : Fin dof → ℚ
  cs : ConstraintSet dof m
  mqddot : ℕ → ℚ

/-- ForwardDynamicsContacts, Contacts.cc lines 686-896: baseline forward
dynamics, baseline point accelerations and residuals, the test-force loop
filling `K`, the `K f = a` solve by the selected solver, the superposition of
the scaled test forces, and the final ForwardDynamicsApplyConstraintForces
pass writing the caller's QDDot buffer. -/
def ForwardDynamicsContacts (env : DynEnv dof) (mdl : RBModel) (nb : ℕ)
    (Q QDot Tau : Fin dof → ℚ) (CS : ConstraintSet dof m)
    (QDDot : Fin dof → ℚ) : FDCResult dof m :=
  let qdd0 := complianceQDDot0 env Q QDot Tau
  let pa0 := compliancePA0 env Q QDot Tau CS.body CS.point
  let aRes := complianceARes env Q QDot Tau CS.body CS.point CS.normal
    CS.constraint_acceleration
  let fstate := complianceFold env mdl nb Q QDot Tau CS
  let force := complianceForce env mdl nb Q QDot Tau CS
  let fextF := complianceFext env mdl nb Q QDot Tau CS
  let ap := ForwardDynamicsApplyConstraintForces env mdl nb fextF
    ⟨fstate.ds.d_pA, fstate.ds.d_a, fstate.ds.d_u, CS.d_IA, CS.d_U, CS.d_d⟩
    QDDot
  { QDDot := ap.1
    cs := { CS with
      QDDot_0 := qdd0
      point_accel_0 := pa0
      a := aRes
      f_t := fstate.f_t
      K := fstate.K
      constraint_force := force
      f_ext_constraints := fextF
      QDDot_t := fstate.buf
      d_pA := ap.2.1.d_pA
      d_a := ap.2.1.d_a
      d_u := ap.2.1.d_u
      d_IA := ap.2.1.d_IA
      d_U := ap.2.1.d_U
      d_d := ap.2.1.d_d }
    mqddot := ap.2.2 }

/-! ### Legacy free-function path (ForwardDynamicsContactsOld) -/

/-- State carried by the test-force loop of ForwardDynamicsContactsOld. -/
structure OldState (m : ℕ) where
  fext : ℕ → SpatialVec
  f_t : Fin m → SpatialVec
  K : Matrix (Fin m) (Fin m) ℚ

/-- One iteration `ci` of the test-force loop of ForwardDynamicsContactsOld
(Contacts.cc lines 535-582): same test force, but the response is obtained by
a full ForwardDynamics call with the single-entry external-force array, and
column `ci` of `K` is filled with
`normal[cj].dot(-point_accel_0[cj] + point_accel_t)` (line 579). -/
def fdcOldStep (env : DynEnv dof) (Q QDot Tau : Fin dof → ℚ)
    (cd : Fin m → ContactInfo) (pa0 : Fin m → Vec3) (st : OldState m)
    (ci : Fin m) : OldState m :=
  let fti := testForce env Q (cd ci).body_id (cd ci).point (cd ci).normal
  let fext1 := Function.update st.fext (cd ci).body_id fti
  let qddt := env.fwdDynF Q QDot Tau fext1
  let fext2 := Function.update fext1 (cd ci).body_id (fun _ => 0)
  { fext := fext2
    f_t := Function.update st.f_t ci fti
    K := Matrix.updateColumn st.K ci
      (fun cj => (cd cj).normal ⬝ᵥ
        (fun k => -(pa0 cj k) +
          env.pointAccel Q QDot qddt (cd cj).body_id (cd cj).point k)) }

/-- The accumulation loop `f_ext_constraints[body] += f_t[ci] * f[ci]` over a
coefficient vector `c`, starting from the all-zero array (Contacts.cc lines
597-607). -/
def fextAccumOf {m : ℕ} (cd : Fin m → ContactInfo) (tf : Fin m → SpatialVec)
    (c : Fin m → ℚ) : ℕ → SpatialVec :=
  (List.finRange m).foldl
    (fun (g : ℕ → SpatialVec) ci =>
      Function.update g ((cd ci).body_id)
        (fun k => g ((cd ci).body_id) k + tf ci k * c ci))
    (fun _ _ => 0)

/-- Baseline point accelerations of the legacy path (Contacts.cc 517-531). -/
def oldPA0 (env : DynEnv dof) (Q QDot Tau : Fin dof → ℚ)
    (cd : Fin m → ContactInfo) : Fin m → Vec3 :=
  fun ci => env.pointAccel Q QDot (env.fwdDyn Q QDot Tau) (cd ci).body_id (cd ci).point

/-- Residuals of the legacy path (Contacts.cc line 528). -/
def oldARes (env : DynEnv dof) (Q QDot Tau : Fin dof → ℚ)
    (cd : Fin m → ContactInfo) : Fin m → ℚ :=
  fun ci => (cd ci).acceleration - (cd ci).normal ⬝ᵥ oldPA0 env Q QDot Tau cd ci

/-- The test-force loop of the legacy path over all contacts, starting from
the zeroed transient workspace (Contacts.cc lines 488-512 and 535-582). -/
def oldFold (env : DynEnv dof) (Q QDot Tau : Fin dof → ℚ)
    (cd : Fin m → ContactInfo) : OldState m :=
  (List.finRange m).foldl (fdcOldStep env Q QDot Tau cd (oldPA0 env Q QDot Tau cd))
    ⟨fun _ _ => 0, fun _ _ => 0, 0⟩

/-- The contact forces of the legacy path: column-pivoted QR on `K f = a`
(Contacts.cc line 589, no solver switch). -/
def oldForce (env : DynEnv dof) (Q QDot Tau : Fin dof → ℚ)
    (cd : Fin m → ContactInfo) : Fin m → ℚ :=
  env.solveQR m (oldFold env Q QDot Tau cd).K (oldARes env Q QDot Tau cd)

/-- ForwardDynamicsContactsOld, Contacts.cc lines 474-614: transient local
workspace zeroed on entry, baseline ForwardDynamics pass, baseline point
accelerations and residuals, test-force loop via full ForwardDynamics calls,
`K f = a` solved by column-pivoted QR (line 589, no solver switch), forces
written into the caller's contact list, and one final ForwardDynamics call
with the accumulated external forces. -/
def ForwardDynamicsContactsOld (env : DynEnv dof) (Q QDot Tau : Fin dof → ℚ)
    (cd : Fin m → ContactInfo) : (Fin dof → ℚ) × (Fin m → ContactInfo) :=
  ⟨env.fwdDynF Q QDot Tau
      (fextAccumOf cd (oldFold env Q QDot Tau cd).f_t (oldForce env Q QDot Tau cd)),
   fun ci => { cd ci with force := oldForce env Q QDot Tau cd ci }⟩

/-! ### Canonical values of the test-force loops, used to state the semantic
hypotheses about the external dynamics collaborators -/

/-- The delta-pass joint accelerations for a single spatial force `f` applied
at body `b`, evaluated on a zero buffer. -/
def deltasAt (env : DynEnv dof) (mdl : RBModel) (nb b : ℕ) (f : SpatialVec) :
    Fin dof → ℚ :=
  (ForwardDynamicsAccelerationDeltas env mdl nb b
    (Function.update zeroSpatialArr b f) (zeroVec dof)).1

/-- The generalized constraint direction of a contact: the contact normal
paired with the point Jacobian, `(n^T J)_j`. -/
def gRow (env : DynEnv dof) (Q : Fin dof → ℚ) (b : ℕ) (p n : Vec3) :
    Fin dof → ℚ :=
  fun j => n ⬝ᵥ fun k => env.pointJacobian Q b p k j

/-- The canonical (state-independent) value of row `ci` of the compliance
matrix of ForwardDynamicsContacts. -/
def complianceKRow (env : DynEnv dof) (mdl : RBModel) (nb : ℕ)
    (Q QDot qdd0 : Fin dof → ℚ) (bodyF : Fin m → ℕ) (pointF : Fin m → Vec3)
    (normalF : Fin m → Vec3) (pa0 : Fin m → Vec3) (ci : Fin m) : Fin m → ℚ :=
  fun cj => normalF cj ⬝ᵥ
    (fun k => env.pointAccel Q QDot
      (fun j => deltasAt env mdl nb (bodyF ci)
          (testForce env Q (bodyF ci) (pointF ci) (normalF ci)) j + qdd0 j)
      (bodyF cj) (pointF cj) k - pa0 cj k)

/-- The canonical joint accelerations of the legacy path under the single
test force of contact `ci`. -/
def oldQDDotT (env : DynEnv dof) (Q QDot Tau : Fin dof → ℚ)
    (cd : Fin m → ContactInfo) (ci : Fin m) : Fin dof → ℚ :=
  env.fwdDynF Q QDot Tau (Function.update zeroSpatialArr ((cd ci).body_id)
    (testForce env Q (cd ci).body_id (cd ci).point (cd ci).normal))

/-- The canonical (state-independent) value of column `ci` of the compliance
matrix of the legacy path. -/
def oldKCol (env : DynEnv dof) (Q QDot Tau : Fin dof → ℚ)
    (cd : Fin m → ContactInfo) (ci : Fin m) : Fin m → ℚ :=
  fun cj => (cd cj).normal ⬝ᵥ
    (fun k => -(oldPA0 env Q QDot Tau cd cj k) +
      env.pointAccel Q QDot (oldQDDotT env Q QDot Tau cd ci)
        (cd cj).body_id (cd cj).point k)

/-! ### Concrete instances used by witnesses and counterexamples -/

/-- The zero 3-vector. -/
def zero3 : Vec3 := fun _ => 0

/-- A concrete collaborator environment for one degree of freedom.  The
dynamics collaborators realise the linear model `H = [[1]]`, `C = 0`,
point Jacobian all ones, affine point accelerations, and the solvers are exact
on the 1-by-1 systems and on the one 2-by-2 KKT system that arises in the
witnesses. -/
def envEx : DynEnv 1 where
  invDyn := fun _ _ _ => fun _ => 0
  crba := fun _ => 1
  pointJacobian := fun _ _ _ => fun _ _ => 1
  pointAccel := fun _ _ w _ _ => fun _ => w 0
  bodyToBase := fun _ _ _ => fun _ => 0
  fwdDyn := fun _ _ Tau => Tau
  fwdDynF := fun _ _ Tau f => fun j => Tau j + f 1 5
  solveLU := fun n _ b => fun i => if n = 1 then -(b i) else if (i : ℕ) = 0 then 3 else -1
  solveQR := fun n _ b => fun i => if n = 1 then -(b i) else if (i : ℕ) = 0 then 3 else -1
  spatialAdjoint := fun M => M
  xtransMat := fun _ => 1
  crossf := fun _ _ => fun _ => 0

/-- A concrete two-body model (root plus one movable body) matching `envEx`. -/
def mdlEx : RBModel where
  lambda := fun _ => 0
  jointFixed := fun _ => false
  S := fun _ => ![0, 0, 0, 0, 0, 1]
  U := fun _ => fun _ => 0
  d := fun _ => 1
  c := fun _ => fun _ => 0
  v := fun _ => fun _ => 0
  a := fun _ => fun _ => 0
  tau := fun _ => 2
  inertia := fun _ => 0
  XlApply := fun _ w => w
  XlMat := fun _ => 1
  XlMatT := fun _ => 1
  XbaseMat := fun _ => 1
  gravity := fun _ => 0
  qddot := fun _ => 0

/-- The same model with every joint marked fixed. -/
def mdlFix : RBModel := { mdlEx with jointFixed := fun _ => true }

/-- An unbound empty registry. -/
def regEx0 : ConstraintSetReg :=
  ⟨false, [], [], [], [], [], []⟩

/-- An unbound registry holding one constraint on body 1 with normal `(0,0,1)`
and desired acceleration 3. -/
def regEx : ConstraintSetReg :=
  ⟨false, [""], [1], [zero3], [vecZ], [3], [0]⟩

/-- The same registry with desired acceleration 0. -/
def regExZ : ConstraintSetReg :=
  ⟨false, [""], [1], [zero3], [vecZ], [0], [0]⟩

/-- A registry whose single constraint normal `(0,1,1)` is not a coordinate
axis. -/
def regBad : ConstraintSetReg :=
  ⟨false, [""], [1], [zero3], [![0, 1, 1]], [0], [0]⟩

/-- The invalid-normal contact list matching `regBad`. -/
def cdBad : Fin 1 → ContactInfo :=
  fun _ => ⟨1, zero3, ![0, 1, 1], 0, 0⟩

/-- The bound ConstraintSet of `regEx` (desired acceleration 3). -/
def csEx : ConstraintSet 1 1 := bindWorkspace 1 1 LinSolver.lu regEx

/-- The bound ConstraintSet of `regExZ` (desired acceleration 0). -/
def csExZ : ConstraintSet 1 1 := bindWorkspace 1 1 LinSolver.lu regExZ

/-- The bound ConstraintSet of `regBad` (invalid normal). -/
def csBad : ConstraintSet 1 1 := bindWorkspace 1 1 LinSolver.lu regBad

/-- The contact list matching `regEx`, for the legacy path and the impulse
solver. -/
def cdEx : Fin 1 → ContactInfo :=
  fun _ => ⟨1, zero3, vecZ, 3, 0⟩

/-! ### Theorems -/

/-- Claim C3, counterexample.  As stated the claim is false: `clear()` also
zeroes the desired accelerations (`constraint_acceleration.setZero()`,
Contacts.cc line 91), which are constraint definitions: on a bound set whose
single constraint has desired acceleration 3, clearing changes that
definition. -/
theorem C3_counterexample :
    (ConstraintSet.clear csEx).constraint_acceleration ≠
      csEx.constraint_acceleration := by
  decide

/-- Claim C3, amended: on a bound ConstraintSet, `clear()` zeroes every force
output and every workspace buffer except `d_IA`, `d_U` and `d_d` (which it
leaves untouched), zeroes the desired accelerations as well (so constraint
definitions are not fully preserved: name, body, point and normal survive but
`constraint_acceleration` does not), and is idempotent, hence callable any
number of times. -/
theorem C3_clear_effects {dof m : ℕ} (cs : ConstraintSet dof m) :
    (cs.clear.name = cs.name ∧ cs.clear.body = cs.body ∧
      cs.clear.point = cs.point ∧ cs.clear.normal = cs.normal) ∧
    (cs.clear.constraint_acceleration = zeroVec m ∧
      cs.clear.constraint_force = zeroVec m ∧
      cs.clear.H = 0 ∧ cs.clear.C = zeroVec dof ∧ cs.clear.gamma = zeroVec m ∧
      cs.clear.G = 0 ∧ cs.clear.A = 0 ∧ cs.clear.b = zeroVec (dof + m) ∧
      cs.clear.x = zeroVec (dof + m) ∧ cs.clear.K = 0 ∧
      cs.clear.a = zeroVec m ∧ cs.clear.QDDot_t = zeroVec dof ∧
      cs.clear.QDDot_0 = zeroVec dof ∧ cs.clear.f_t = zeroSpatialFin m ∧
      cs.clear.f_ext_constraints = zeroSpatialArr ∧
      cs.clear.point_accel_0 = zeroVec3Fin m ∧ cs.clear.d_pA = zeroSpatialArr ∧
      cs.clear.d_a = zeroSpatialArr ∧ cs.clear.d_u = zeroScalArr) ∧
    (cs.clear.d_IA = cs.d_IA ∧ cs.clear.d_U = cs.d_U ∧
      cs.clear.d_d = cs.d_d) ∧
    cs.clear.clear = cs.clear := by
  refine ⟨⟨rfl, rfl, rfl, rfl⟩, ⟨rfl, rfl, rfl, rfl, rfl, rfl, rfl, rfl, rfl,
    rfl, rfl, rfl, rfl, rfl, rfl, rfl, rfl, rfl, rfl⟩, ⟨rfl, rfl, rfl⟩, rfl⟩

/-- Claim C7: `AddConstraint` fails with a precondition violation on a bound
registry; on an unbound registry it appends the constraint to every parallel
array, initialises the new force output to zero, preserves the parallel-array
invariant, and returns the new constraint's index, which equals the number of
constraints registered before the call. -/
theorem C7_AddConstraint (cs : ConstraintSetReg) (body_id : ℕ) (p nrm : Vec3)
    (nm : Option String) (acc : ℚ) (hpar : cs.parallel) :
    (cs.bound = true → cs.AddConstraint body_id p nrm nm acc = none) ∧
    (cs.bound = false → ∃ cs2 : ConstraintSetReg,
      cs.AddConstraint body_id p nrm nm acc = some (cs2, cs.size) ∧
      cs2.name = cs.name ++ [nm.getD ""] ∧
      cs2.body = cs.body ++ [body_id] ∧
      cs2.point = cs.point ++ [p] ∧
      cs2.normal = cs.normal ++ [nrm] ∧
      cs2.constraint_acceleration = cs.constraint_acceleration ++ [acc] ∧
      cs2.constraint_force = cs.constraint_force ++ [(0 : ℚ)] ∧
      cs2.constraint_force.getD cs.size 0 = 0 ∧
      cs2.bound = false ∧
      cs2.parallel ∧ cs2.size = cs.size + 1) := by
  constructor
  · intro hb
    simp [ConstraintSetReg.AddConstraint, hb]
  · intro hb
    refine ⟨{ cs with
        name := cs.name ++ [nm.getD ""]
        body := cs.body ++ [body_id]
        point := cs.point ++ [p]
        normal := cs.normal ++ [nrm]
        constraint_acceleration := cs.constraint_acceleration ++ [acc]
        constraint_force := cs.constraint_force ++ [(0 : ℚ)] },
      ?_, rfl, rfl, rfl, rfl, rfl, rfl, ?_, hb, ?_, ?_⟩
    · simp [ConstraintSetReg.AddConstraint, hb, ConstraintSetReg.size]
    · have : cs.size = cs.constraint_force.length := by
        simpa [ConstraintSetReg.size] using hpar.2.2.2.2.symm
      simp [this, List.getD_eq_getElem?_getD]
    · obtain ⟨h1, h2, h3, h4, h5⟩ := hpar
      refine ⟨?_, ?_, ?_, ?_, ?_⟩ <;>
        simp [ConstraintSetReg.parallel, h1, h2, h3, h4, h5]
    · simp [ConstraintSetReg.size]

/-- Witness for C7 at a concrete registry. -/
theorem C7_witness :
    regEx.parallel ∧
    (regEx.bound = false → ∃ cs2 : ConstraintSetReg,
      regEx.AddConstraint 2 zero3 vecX none 5 = some (cs2, regEx.size) ∧
      cs2.name = regEx.name ++ [(none : Option String).getD ""] ∧
      cs2.body = regEx.body ++ [2] ∧
      cs2.point = regEx.point ++ [zero3] ∧
      cs2.normal = regEx.normal ++ [vecX] ∧
      cs2.constraint_acceleration = regEx.constraint_acceleration ++ [5] ∧
      cs2.constraint_force = regEx.constraint_force ++ [(0 : ℚ)] ∧
      cs2.constraint_force.getD regEx.size 0 = 0 ∧
      cs2.bound = false ∧
      cs2.parallel ∧ cs2.size = regEx.size + 1) :=
  ⟨by decide, (C7_AddConstraint regEx 2 zero3 vecX none 5 (by decide)).2⟩

/-- Claim C2, counterexample.  As stated the claim is false: the
Compliance/Superposition entry point `ForwardDynamicsContacts` performs no
normal validation at all.  On a bound set whose single constraint has the
invalid normal `(0,1,1)`, the engine runs to completion: the compliance matrix
is assembled, the linear solver is invoked, and a constraint force and joint
accelerations are delivered instead of a precondition violation. -/
theorem C2_counterexample :
    axisIndex (csBad.normal 0) = none ∧
    (ForwardDynamicsContacts envEx mdlEx 2 (zeroVec 1) (zeroVec 1)
        (fun _ => (2 : ℚ)) csBad (zeroVec 1)).cs.constraint_force 0 = 4 ∧
    (ForwardDynamicsContacts envEx mdlEx 2 (zeroVec 1) (zeroVec 1)
        (fun _ => (2 : ℚ)) csBad (zeroVec 1)).QDDot 0 = -2 := by
  refine ⟨by decide, ?_, ?_⟩
  · norm_num [ForwardDynamicsContacts, complianceForce, complianceK, complianceFold,
      complianceARes, compliancePA0, complianceQDDot0, fdcStep, testForce,
      ForwardDynamicsAccelerationDeltas, deltasInward, deltasInwardStep,
      deltasOutward, deltasOutwardStep, selSolve, envEx, mdlEx, csBad, regBad,
      bindWorkspace, zeroVec, zero3, extendV, Matrix.mulVec, Matrix.dotProduct,
      Fin.sum_univ_succ, Function.update, Matrix.updateRow, List.finRange,
      List.foldl, Matrix.cons_val_zero, Matrix.cons_val_one, Matrix.head_cons]
  · norm_num [ForwardDynamicsContacts, ForwardDynamicsApplyConstraintForces,
      applyOutward, applyOutwardStep, applyInward, applyInwardStep, applyFirstPA,
      applyFirstIA, spatialGravity, complianceFext, complianceForce, complianceK,
      complianceFold, complianceARes, compliancePA0, complianceQDDot0, fdcStep,
      testForce, ForwardDynamicsAccelerationDeltas, deltasInward, deltasInwardStep,
      deltasOutward, deltasOutwardStep, selSolve, envEx, mdlEx, csBad, regBad,
      bindWorkspace, zeroVec, zero3, extendV, Matrix.mulVec, Matrix.dotProduct,
      Fin.sum_univ_succ, Function.update, Matrix.updateRow, List.finRange,
      List.foldl, Matrix.cons_val_zero, Matrix.cons_val_one, Matrix.head_cons,
      funext_iff, Fin.forall_fin_succ, Matrix.one_apply, Fin.ext_iff,
      Fin.val_succ, Fin.val_zero]

/-- Claim C2, amended: only the Dense KKT solver and the Impulse solver
reject a constraint normal that is not one of the three positive coordinate
unit vectors (they abort with a precondition violation during constraint
processing, after the bias vector and mass matrix have been computed but
before the augmented system is assembled or solved); the
Compliance/Superposition engine performs no normal validation. -/
theorem C2_axis_rejection {dof m : ℕ} (env : DynEnv dof)
    (Q QDot Tau QDotMinus : Fin dof → ℚ) (CS : ConstraintSet dof m)
    (cd : Fin m → ContactInfo)
    (hCS : ∃ i : Fin m, axisIndex (CS.normal i) = none)
    (hcd : ∃ i : Fin m, axisIndex ((cd i).normal) = none) :
    ForwardDynamicsContactsLagrangian env Q QDot Tau CS = none ∧
    ComputeContactImpulsesLagrangian env Q QDotMinus cd = none := by
  constructor
  · rw [ForwardDynamicsContactsLagrangian, if_neg]
    intro hall
    obtain ⟨i, hi⟩ := hCS
    have := hall i
    rw [hi] at this
    exact Bool.noConfusion this
  · rw [ComputeContactImpulsesLagrangian, if_neg]
    intro hall
    obtain ⟨i, hi⟩ := hcd
    have := hall i
    rw [hi] at this
    exact Bool.noConfusion this

/-- Witness for C2 at a concrete invalid-normal constraint set and contact
list. -/
theorem C2_witness :
    (∃ i : Fin 1, axisIndex (csBad.normal i) = none) ∧
    (ForwardDynamicsContactsLagrangian envEx (zeroVec 1) (zeroVec 1)
        (fun _ => (2 : ℚ)) csBad = none ∧
      ComputeContactImpulsesLagrangian envEx (zeroVec 1) (fun _ => (2 : ℚ))
        cdBad = none) :=
  ⟨by decide, C2_axis_rejection envEx (zeroVec 1) (zeroVec 1) (fun _ => (2 : ℚ))
    (zeroVec 1) csBad cdBad (by decide) (by decide)⟩

/-- Claim C9: the impulse solver always uses the column-pivoted QR
factorisation (it is insensitive to the LU backend and has no
selectable-strategy parameter), its right-hand side is the pre-impact momentum
`H * QDotMinus` on top and each contact's target post-impact normal velocity
below, the first `dof` entries of the solution become `QDotPlus`, and the
remaining entries are written back as the impulses of the caller's contact
list in contact order. -/
theorem C9_impulse_solver {dof m : ℕ} (env : DynEnv dof)
    (Q QDotMinus : Fin dof → ℚ) (cd : Fin m → ContactInfo)
    (hax : ∀ i : Fin m, (axisIndex ((cd i).normal)).isSome) :
    ComputeContactImpulsesLagrangian env Q QDotMinus cd =
      some (fun j => impulseX env Q QDotMinus cd (Fin.castAdd m j),
        fun i => { cd i with force := impulseX env Q QDotMinus cd (Fin.natAdd dof i) }) ∧
    (∀ f, ComputeContactImpulsesLagrangian { env with solveLU := f } Q QDotMinus cd =
      ComputeContactImpulsesLagrangian env Q QDotMinus cd) ∧
    impulseX env Q QDotMinus cd =
      env.solveQR (dof + m) (impulseA env Q cd) (impulseB env Q QDotMinus cd) ∧
    (∀ j : Fin dof, impulseB env Q QDotMinus cd (Fin.castAdd m j) =
      (env.crba Q).mulVec QDotMinus j) ∧
    (∀ i : Fin m, impulseB env Q QDotMinus cd (Fin.natAdd dof i) =
      (cd i).acceleration) := by
  refine ⟨?_, ?_, rfl, ?_, ?_⟩
  · rw [ComputeContactImpulsesLagrangian, if_pos hax]
  · intro f
    rfl
  · intro j
    simp [impulseB]
  · intro i
    simp [impulseB]

/-- Witness for C9 at a concrete contact list. -/
theorem C9_witness :
    ComputeContactImpulsesLagrangian envEx (zeroVec 1) (fun _ => (2 : ℚ)) cdEx =
      some (fun j => impulseX envEx (zeroVec 1) (fun _ => (2 : ℚ)) cdEx (Fin.castAdd 1 j),
        fun i => { cdEx i with
          force := impulseX envEx (zeroVec 1) (fun _ => (2 : ℚ)) cdEx (Fin.natAdd 1 i) }) ∧
    (∀ f, ComputeContactImpulsesLagrangian { envEx with solveLU := f } (zeroVec 1)
        (fun _ => (2 : ℚ)) cdEx =
      ComputeContactImpulsesLagrangian envEx (zeroVec 1) (fun _ => (2 : ℚ)) cdEx) ∧
    impulseX envEx (zeroVec 1) (fun _ => (2 : ℚ)) cdEx =
      envEx.solveQR (1 + 1) (impulseA envEx (zeroVec 1) cdEx)
        (impulseB envEx (zeroVec 1) (fun _ => (2 : ℚ)) cdEx) ∧
    (∀ j : Fin 1, impulseB envEx (zeroVec 1) (fun _ => (2 : ℚ)) cdEx (Fin.castAdd 1 j) =
      (envEx.crba (zeroVec 1)).mulVec (fun _ => (2 : ℚ)) j) ∧
    (∀ i : Fin 1, impulseB envEx (zeroVec 1) (fun _ => (2 : ℚ)) cdEx (Fin.natAdd 1 i) =
      (cdEx i).acceleration) :=
  C9_impulse_solver envEx (zeroVec 1) (fun _ => (2 : ℚ)) cdEx (by decide)

/-- One inward delta step reads the force array only at `body_id`. -/
theorem deltasInwardStep_congr {dof : ℕ} (env : DynEnv dof) (mdl : RBModel)
    (b : ℕ) (f₁ f₂ : ℕ → SpatialVec) (h : f₁ b = f₂ b) (i : ℕ)
    (s : DeltaScratch) :
    deltasInwardStep env mdl b f₁ i s = deltasInwardStep env mdl b f₂ i s := by
  unfold deltasInwardStep
  by_cases hi : i = b
  · subst hi
    rw [h]
  · simp only [hi, if_false]

/-- The inward delta loop reads the force array only at `body_id`. -/
theorem deltasInward_congr {dof : ℕ} (env : DynEnv dof) (mdl : RBModel)
    (b : ℕ) (f₁ f₂ : ℕ → SpatialVec) (h : f₁ b = f₂ b) :
    ∀ (k : ℕ) (s : DeltaScratch),
      deltasInward env mdl b f₁ k s = deltasInward env mdl b f₂ k s := by
  intro k
  induction k with
  | zero => intro s; rfl
  | succ k ih =>
    intro s
    show deltasInward env mdl b f₁ k _ = deltasInward env mdl b f₂ k _
    rw [deltasInwardStep_congr env mdl b f₁ f₂ h, ih]

/-- ForwardDynamicsAccelerationDeltas reads the force array only at
`body_id`. -/
theorem FDAD_fext_congr {dof : ℕ} (env : DynEnv dof) (mdl : RBModel)
    (nb b : ℕ) (f₁ f₂ : ℕ → SpatialVec) (buf : Fin dof → ℚ)
    (h : f₁ b = f₂ b) :
    ForwardDynamicsAccelerationDeltas env mdl nb b f₁ buf =
      ForwardDynamicsAccelerationDeltas env mdl nb b f₂ buf := by
  simp only [ForwardDynamicsAccelerationDeltas,
    deltasInward_congr env mdl b f₁ f₂ h]

/-- Claim C10: ForwardDynamicsAccelerationDeltas depends on the supplied
spatial-force array only through its entry at `body_id`; two calls with the
same model and body on force arrays agreeing there return the same `QDDot_t`
and the same `d_pA`, `d_a`, `d_u` scratch (the pass zeroes that scratch on
entry and reads no other entry of the force array). -/
theorem C10_deltas_force_locality {dof : ℕ} (env : DynEnv dof) (mdl : RBModel)
    (nb b : ℕ) (f₁ f₂ : ℕ → SpatialVec) (buf : Fin dof → ℚ)
    (h : f₁ b = f₂ b) :
    ForwardDynamicsAccelerationDeltas env mdl nb b f₁ buf =
      ForwardDynamicsAccelerationDeltas env mdl nb b f₂ buf :=
  FDAD_fext_congr env mdl nb b f₁ f₂ buf h

/-- Witness for C10: two force arrays that differ at body 0 but agree at the
queried body 1 give identical delta-pass results. -/
theorem C10_witness :
    (zeroSpatialArr 1 =
      Function.update zeroSpatialArr 0 (fun _ => (1 : ℚ)) 1) ∧
    ForwardDynamicsAccelerationDeltas envEx mdlEx 2 1 zeroSpatialArr (zeroVec 1) =
      ForwardDynamicsAccelerationDeltas envEx mdlEx 2 1
        (Function.update zeroSpatialArr 0 (fun _ => (1 : ℚ))) (zeroVec 1) :=
  ⟨by decide, C10_deltas_force_locality envEx mdlEx 2 1 zeroSpatialArr
    (Function.update zeroSpatialArr 0 (fun _ => (1 : ℚ))) (zeroVec 1) (by decide)⟩

/-- Claim C8, counterexample.  As stated the claim is false: the
delta-propagation pass has no fixed-joint test at all.  On a model whose only
joint is fixed, a unit test force still produces the solve value `-1` in the
fixed joint's `QDDot_t` entry instead of zero. -/
theorem C8_counterexample :
    mdlFix.jointFixed 1 = true ∧
    (ForwardDynamicsAccelerationDeltas envEx mdlFix 2 1
        (Function.update zeroSpatialArr 1
          (testForce envEx (zeroVec 1) 1 zero3 vecZ)) (zeroVec 1)).1 0 = -1 := by
  refine ⟨rfl, ?_⟩
  norm_num [ForwardDynamicsAccelerationDeltas, deltasInward, deltasInwardStep,
    deltasOutward, deltasOutwardStep, testForce, envEx, mdlFix, mdlEx, zero3,
    vecZ, extendV, zeroVec, zeroSpatialArr, Function.update, Matrix.mulVec,
    Matrix.dotProduct, Fin.sum_univ_succ, Matrix.cons_val_zero,
    Matrix.cons_val_one, Matrix.head_cons, Matrix.one_apply, Fin.ext_iff,
    Fin.val_succ, Fin.val_zero]

/-- The inward delta loop never reads the fixed-joint flags. -/
theorem deltasInward_jointFixed {dof : ℕ} (env : DynEnv dof) (mdl : RBModel)
    (g : ℕ → Bool) (b : ℕ) (f : ℕ → SpatialVec) :
    ∀ (k : ℕ) (s : DeltaScratch),
      deltasInward env { mdl with jointFixed := g } b f k s =
        deltasInward env mdl b f k s := by
  intro k
  induction k with
  | zero => intro s; rfl
  | succ k ih =>
    intro s
    show deltasInward env { mdl with jointFixed := g } b f k _ = _
    rw [ih]
    rfl

/-- The outward delta loop never reads the fixed-joint flags. -/
theorem deltasOutward_jointFixed (mdl : RBModel) (g : ℕ → Bool) (du : ℕ → ℚ) :
    ∀ (k : ℕ) (s : (ℕ → ℚ) × (ℕ → SpatialVec)),
      deltasOutward { mdl with jointFixed := g } du k s =
        deltasOutward mdl du k s := by
  intro k
  induction k with
  | zero => intro s; rfl
  | succ k ih =>
    intro s
    show deltasOutwardStep { mdl with jointFixed := g } du (k + 1) _ = _
    rw [ih]
    rfl

/-- ForwardDynamicsAccelerationDeltas never reads the fixed-joint flags. -/
theorem FDAD_jointFixed {dof : ℕ} (env : DynEnv dof) (mdl : RBModel)
    (g : ℕ → Bool) (nb b : ℕ) (f : ℕ → SpatialVec) (buf : Fin dof → ℚ) :
    ForwardDynamicsAccelerationDeltas env { mdl with jointFixed := g } nb b f buf =
      ForwardDynamicsAccelerationDeltas env mdl nb b f buf := by
  simp only [ForwardDynamicsAccelerationDeltas, deltasInward_jointFixed,
    deltasOutward_jointFixed]

/-- In the outward apply pass, a later iteration never touches the model
qddot scratch entry of an earlier fixed joint. -/
theorem applyOutward_mq_fixed (mdl : RBModel) (i : ℕ)
    (hfix : mdl.jointFixed i = true) :
    ∀ (k : ℕ) (s : ApplyState), 1 ≤ i → i ≤ k →
      (applyOutward mdl k s).mq i = 0 := by
  intro k
  induction k with
  | zero => intro s h1 h2; omega
  | succ k ih =>
    intro s h1 h2
    show (applyOutwardStep mdl (k + 1) (applyOutward mdl k s)).mq i = 0
    by_cases hik : i = k + 1
    · subst hik
      unfold applyOutwardStep
      rw [hfix]
      simp
    · have hik2 : i ≤ k := by omega
      have hpre : (applyOutwardStep mdl (k + 1) (applyOutward mdl k s)).mq i =
          (applyOutward mdl k s).mq i := by
        unfold applyOutwardStep
        by_cases hf : mdl.jointFixed (k + 1)
        · rw [if_pos hf]
          exact Function.update_noteq hik 0 _
        · rw [if_neg hf]
      rw [hpre]
      exact ih s h1 hik2

/-- In the outward apply pass, the QDDot buffer entry of a fixed joint is
never written: only a non-fixed joint `j` writes index `j - 1`. -/
theorem applyOutward_q_fixed (mdl : RBModel) (i : ℕ)
    (hfix : mdl.jointFixed i = true) (h1 : 1 ≤ i) :
    ∀ (k : ℕ) (s : ApplyState),
      (applyOutward mdl k s).q (i - 1) = s.q (i - 1) := by
  intro k
  induction k with
  | zero => intro s; rfl
  | succ k ih =>
    intro s
    show (applyOutwardStep mdl (k + 1) (applyOutward mdl k s)).q (i - 1) = _
    have hstep : (applyOutwardStep mdl (k + 1) (applyOutward mdl k s)).q (i - 1) =
        (applyOutward mdl k s).q (i - 1) := by
      unfold applyOutwardStep
      by_cases hf : mdl.jointFixed (k + 1)
      · rw [if_pos hf]
      · rw [if_neg hf]
        refine Function.update_noteq ?_ _ _
        intro hc
        have : i = k + 1 := by omega
        rw [this] at hfix
        rw [hfix] at hf
        exact hf rfl
    rw [hstep]
    exact ih s

/-- Claim C8, amended: only the final apply pass special-cases fixed joints.
The delta-propagation pass is entirely insensitive to the fixed-joint flags
and computes the fixed joint's `QDDot_t` entry from the solve like any other
joint; in the apply pass a fixed joint `i` gets `model.qddot[i] = 0` and its
entry of the caller's QDDot buffer is left untouched. -/
theorem C8_fixed_joints {dof : ℕ} (env : DynEnv dof) (mdl : RBModel)
    (g : ℕ → Bool) (nb b : ℕ) (f : ℕ → SpatialVec) (buf : Fin dof → ℚ)
    (fext : ℕ → SpatialVec) (s : BodyScratch) (i : ℕ)
    (hfix : mdl.jointFixed i = true) (h1 : 1 ≤ i) (h2 : i < nb) :
    ForwardDynamicsAccelerationDeltas env { mdl with jointFixed := g } nb b f buf =
      ForwardDynamicsAccelerationDeltas env mdl nb b f buf ∧
    (ForwardDynamicsApplyConstraintForces env mdl nb fext s buf).2.2 i = 0 ∧
    (∀ h : i - 1 < dof,
      (ForwardDynamicsApplyConstraintForces env mdl nb fext s buf).1 ⟨i - 1, h⟩ =
        buf ⟨i - 1, h⟩) := by
  refine ⟨FDAD_jointFixed env mdl g nb b f buf, ?_, ?_⟩
  · exact applyOutward_mq_fixed mdl i hfix (nb - 1) _ h1 (by omega)
  · intro h
    show (applyOutward mdl (nb - 1) _).q (i - 1) = _
    rw [applyOutward_q_fixed mdl i hfix h1 (nb - 1) _]
    simp [extendV, h]

/-- Witness for C8 at the all-fixed two-body model. -/
theorem C8_witness :
    mdlFix.jointFixed 1 = true ∧
    (ForwardDynamicsAccelerationDeltas envEx { mdlFix with jointFixed := fun _ => false }
        2 1 zeroSpatialArr (zeroVec 1) =
      ForwardDynamicsAccelerationDeltas envEx mdlFix 2 1 zeroSpatialArr (zeroVec 1) ∧
    (ForwardDynamicsApplyConstraintForces envEx mdlFix 2 zeroSpatialArr
        ⟨zeroSpatialArr, zeroSpatialArr, zeroScalArr, fun _ => 1, zeroSpatialArr,
          zeroScalArr⟩ (zeroVec 1)).2.2 1 = 0 ∧
    (∀ h : 1 - 1 < 1,
      (ForwardDynamicsApplyConstraintForces envEx mdlFix 2 zeroSpatialArr
          ⟨zeroSpatialArr, zeroSpatialArr, zeroScalArr, fun _ => 1, zeroSpatialArr,
            zeroScalArr⟩ (zeroVec 1)).1 ⟨1 - 1, h⟩ = zeroVec 1 ⟨1 - 1, h⟩)) :=
  ⟨rfl, C8_fixed_joints envEx mdlFix (fun _ => false) 2 1 zeroSpatialArr (zeroVec 1)
    zeroSpatialArr ⟨zeroSpatialArr, zeroSpatialArr, zeroScalArr, fun _ => 1,
      zeroSpatialArr, zeroScalArr⟩ 1 rfl (by omega) (by omega)⟩

/-- The assembled augmented matrix is symmetric whenever its upper-left block
is. -/
theorem kktMatrix_symm {dof m : ℕ} (H : Matrix (Fin dof) (Fin dof) ℚ)
    (G : Matrix (Fin m) (Fin dof) ℚ) (hH : ∀ a b, H a b = H b a) :
    (kktMatrix H G)ᵀ = kktMatrix H G := by
  ext r c
  rw [Matrix.transpose_apply]
  refine Fin.addCases (fun ri => ?_) (fun ri => ?_) r
  · refine Fin.addCases (fun ci => ?_) (fun ci => ?_) c
    · simp [kktMatrix, Fin.addCases_left, hH ci ri]
    · simp [kktMatrix, Fin.addCases_left, Fin.addCases_right]
  · refine Fin.addCases (fun ci => ?_) (fun ci => ?_) c
    · simp [kktMatrix, Fin.addCases_left, Fin.addCases_right]
    · simp [kktMatrix, Fin.addCases_right]

/-- Claim C6: ForwardDynamicsContactsLagrangian assembles the augmented
matrix `A = [[H, G^T], [G, 0]]` of size `(dof+m)^2` (symmetric whenever the
mass matrix is), the right-hand side `b = [Tau - C; -gamma]`, obtains `x` from
the Registry's selected solver applied to that system, and copies the first
`dof` entries of `x` to the QDDot output and the remaining `m` entries to the
per-constraint forces, in constraint index order. -/
theorem C6_kkt_assembly {dof m : ℕ} (env : DynEnv dof)
    (Q QDot Tau : Fin dof → ℚ) (CS : ConstraintSet dof m)
    (hax : ∀ i : Fin m, (axisIndex (CS.normal i)).isSome)
    (hsym : (env.crba Q)ᵀ = env.crba Q) :
    ForwardDynamicsContactsLagrangian env Q QDot Tau CS =
      some (fun j => lagrangianX env Q QDot Tau CS (Fin.castAdd m j),
        fun i => lagrangianX env Q QDot Tau CS (Fin.natAdd dof i)) ∧
    (∀ i j : Fin dof, lagrangianA env Q CS (Fin.castAdd m i) (Fin.castAdd m j) =
      env.crba Q i j) ∧
    (∀ (i : Fin m) (j : Fin dof),
      lagrangianA env Q CS (Fin.natAdd dof i) (Fin.castAdd m j) =
        lagrangianG env Q CS i j) ∧
    (∀ (i : Fin m) (j : Fin dof),
      lagrangianA env Q CS (Fin.castAdd m j) (Fin.natAdd dof i) =
        lagrangianG env Q CS i j) ∧
    (∀ i i' : Fin m,
      lagrangianA env Q CS (Fin.natAdd dof i) (Fin.natAdd dof i') = 0) ∧
    (lagrangianA env Q CS)ᵀ = lagrangianA env Q CS ∧
    (∀ j : Fin dof, lagrangianB env Q QDot Tau CS (Fin.castAdd m j) =
      Tau j - lagrangianC env Q QDot j) ∧
    (∀ i : Fin m, lagrangianB env Q QDot Tau CS (Fin.natAdd dof i) =
      -(lagrangianGamma env Q QDot CS i)) ∧
    lagrangianX env Q QDot Tau CS =
      selSolve env CS.linear_solver (dof + m) (lagrangianA env Q CS)
        (lagrangianB env Q QDot Tau CS) := by
  have hs : ∀ a b : Fin dof, env.crba Q a b = env.crba Q b a := by
    intro a b
    conv_lhs => rw [← hsym]
    rw [Matrix.transpose_apply]
  refine ⟨?_, ?_, ?_, ?_, ?_, ?_, ?_, ?_, rfl⟩
  · rw [ForwardDynamicsContactsLagrangian, if_pos hax]
  · intro i j
    simp [lagrangianA, kktMatrix]
  · intro i j
    simp [lagrangianA, kktMatrix]
  · intro i j
    simp [lagrangianA, kktMatrix]
  · intro i i'
    simp [lagrangianA, kktMatrix]
  · exact kktMatrix_symm (env.crba Q) (lagrangianG env Q CS) hs
  · intro j
    simp [lagrangianB, kktRhs, sub_eq_neg_add, add_comm]
  · intro i
    simp [lagrangianB, kktRhs]

/-- Witness for C6 at the concrete constraint set. -/
theorem C6_witness :
    ForwardDynamicsContactsLagrangian envEx (zeroVec 1) (zeroVec 1)
        (fun _ => (2 : ℚ)) csEx =
      some (fun j => lagrangianX envEx (zeroVec 1) (zeroVec 1) (fun _ => (2 : ℚ))
          csEx (Fin.castAdd 1 j),
        fun i => lagrangianX envEx (zeroVec 1) (zeroVec 1) (fun _ => (2 : ℚ))
          csEx (Fin.natAdd 1 i)) ∧
    (∀ i j : Fin 1, lagrangianA envEx (zeroVec 1) csEx (Fin.castAdd 1 i)
        (Fin.castAdd 1 j) = envEx.crba (zeroVec 1) i j) ∧
    (∀ (i : Fin 1) (j : Fin 1), lagrangianA envEx (zeroVec 1) csEx
        (Fin.natAdd 1 i) (Fin.castAdd 1 j) = lagrangianG envEx (zeroVec 1) csEx i j) ∧
    (∀ (i : Fin 1) (j : Fin 1), lagrangianA envEx (zeroVec 1) csEx
        (Fin.castAdd 1 j) (Fin.natAdd 1 i) = lagrangianG envEx (zeroVec 1) csEx i j) ∧
    (∀ i i' : Fin 1, lagrangianA envEx (zeroVec 1) csEx (Fin.natAdd 1 i)
        (Fin.natAdd 1 i') = 0) ∧
    (lagrangianA envEx (zeroVec 1) csEx)ᵀ = lagrangianA envEx (zeroVec 1) csEx ∧
    (∀ j : Fin 1, lagrangianB envEx (zeroVec 1) (zeroVec 1) (fun _ => (2 : ℚ))
        csEx (Fin.castAdd 1 j) =
      (fun _ => (2 : ℚ)) j - lagrangianC envEx (zeroVec 1) (zeroVec 1) j) ∧
    (∀ i : Fin 1, lagrangianB envEx (zeroVec 1) (zeroVec 1) (fun _ => (2 : ℚ))
        csEx (Fin.natAdd 1 i) =
      -(lagrangianGamma envEx (zeroVec 1) (zeroVec 1) csEx i)) ∧
    lagrangianX envEx (zeroVec 1) (zeroVec 1) (fun _ => (2 : ℚ)) csEx =
      selSolve envEx csEx.linear_solver (1 + 1) (lagrangianA envEx (zeroVec 1) csEx)
        (lagrangianB envEx (zeroVec 1) (zeroVec 1) (fun _ => (2 : ℚ)) csEx) :=
  C6_kkt_assembly envEx (zeroVec 1) (zeroVec 1) (fun _ => (2 : ℚ)) csEx
    (by decide) (by decide)

/-- The inward apply pass never modifies the `d_a` scratch. -/
theorem applyInward_d_a (mdl : RBModel) :
    ∀ (k : ℕ) (s : BodyScratch), (applyInward mdl k s).d_a = s.d_a := by
  intro k
  induction k with
  | zero => intro s; rfl
  | succ k ih =>
    intro s
    show (applyInward mdl k _).d_a = _
    rw [ih]
    unfold applyInwardStep
    by_cases hf : mdl.jointFixed (k + 1)
    · simp only [if_pos hf]
    · simp only [if_neg hf]
      by_cases hl : mdl.lambda (k + 1) ≠ 0
      · simp only [if_pos hl]
      · simp only [if_neg hl]

/-- One inward apply step preserves agreement of two scratch states that share
`d_pA` and `d_u` and agree on `d_IA` over the body range. -/
theorem applyInwardStep_indep (mdl : RBModel) (nb i : ℕ) (hi1 : 1 ≤ i)
    (hi2 : i < nb) (s t : BodyScratch) (hpA : s.d_pA = t.d_pA)
    (hu : s.d_u = t.d_u) (hIA : ∀ j, 1 ≤ j → j < nb → s.d_IA j = t.d_IA j) :
    (applyInwardStep mdl i s).d_pA = (applyInwardStep mdl i t).d_pA ∧
    (applyInwardStep mdl i s).d_u = (applyInwardStep mdl i t).d_u ∧
    (∀ j, 1 ≤ j → j < nb →
      (applyInwardStep mdl i s).d_IA j = (applyInwardStep mdl i t).d_IA j) := by
  obtain ⟨spA, sa, su, sIA, sU, sd⟩ := s
  obtain ⟨tpA, ta, tu, tIA, tU, td⟩ := t
  simp only at hpA hu hIA
  subst hpA
  subst hu
  have hIAi : sIA i = tIA i := hIA i hi1 hi2
  unfold applyInwardStep
  by_cases hf : mdl.jointFixed i
  · simp only [if_pos hf]
    exact ⟨by trivial, by trivial, hIA⟩
  · simp only [if_neg hf, hIAi]
    by_cases hl : mdl.lambda i ≠ 0
    · simp only [if_pos hl]
      refine ⟨by trivial, by trivial, ?_⟩
      intro j hj1 hj2
      by_cases hjl : j = mdl.lambda i
      · subst hjl
        rw [Function.update_same, Function.update_same, hIA _ hj1 hj2]
      · rw [Function.update_noteq hjl, Function.update_noteq hjl]
        exact hIA j hj1 hj2
    · simp only [if_neg hl]
      exact ⟨by trivial, by trivial, hIA⟩

/-- The inward apply pass is insensitive to the entry values of `d_IA`, `d_U`
and `d_d` outside the body range: from two states sharing `d_pA` and `d_u` and
agreeing on `d_IA` over the body range, it produces equal `d_pA` and `d_u`. -/
theorem applyInward_indep (mdl : RBModel) (nb : ℕ) :
    ∀ (k : ℕ) (s t : BodyScratch), k ≤ nb - 1 →
      s.d_pA = t.d_pA → s.d_u = t.d_u →
      (∀ j, 1 ≤ j → j < nb → s.d_IA j = t.d_IA j) →
      (applyInward mdl k s).d_pA = (applyInward mdl k t).d_pA ∧
      (applyInward mdl k s).d_u = (applyInward mdl k t).d_u := by
  intro k
  induction k with
  | zero => intro s t _ hpA hu _; exact ⟨hpA, hu⟩
  | succ k ih =>
    intro s t hk hpA hu hIA
    have hi1 : 1 ≤ k + 1 := by omega
    have hi2 : k + 1 < nb := by omega
    obtain ⟨h1, h2, h3⟩ := applyInwardStep_indep mdl nb (k + 1) hi1 hi2 s t hpA hu hIA
    exact ih (applyInwardStep mdl (k + 1) s) (applyInwardStep mdl (k + 1) t)
      (by omega) h1 h2 h3

/-- One outward apply step preserves agreement of the `q`, `mq`, `d_a` and
`d_u` components of two states. -/
theorem applyOutwardStep_indep (mdl : RBModel) (i : ℕ) (s t : ApplyState)
    (ha : s.scr.d_a = t.scr.d_a) (hu : s.scr.d_u = t.scr.d_u)
    (hq : s.q = t.q) (hm : s.mq = t.mq) :
    (applyOutwardStep mdl i s).q = (applyOutwardStep mdl i t).q ∧
    (applyOutwardStep mdl i s).mq = (applyOutwardStep mdl i t).mq ∧
    (applyOutwardStep mdl i s).scr.d_a = (applyOutwardStep mdl i t).scr.d_a ∧
    (applyOutwardStep mdl i s).scr.d_u = (applyOutwardStep mdl i t).scr.d_u := by
  obtain ⟨⟨spA, sa, su, sIA, sU, sd⟩, sq, sm⟩ := s
  obtain ⟨⟨tpA, ta, tu, tIA, tU, td⟩, tq, tm⟩ := t
  simp only at ha hu hq hm
  subst ha
  subst hu
  subst hq
  subst hm
  unfold applyOutwardStep
  by_cases hf : mdl.jointFixed i
  · simp only [if_pos hf]
    exact ⟨by trivial, by trivial, by trivial, by trivial⟩
  · simp only [if_neg hf]
    exact ⟨by trivial, by trivial, by trivial, by trivial⟩

/-- The outward apply pass produces equal QDDot buffers, model-qddot scratch
and `d_a` scratch from two states sharing `d_a`, `d_u`, `q` and `mq`. -/
theorem applyOutward_indep (mdl : RBModel) :
    ∀ (k : ℕ) (s t : ApplyState),
      s.scr.d_a = t.scr.d_a → s.scr.d_u = t.scr.d_u → s.q = t.q → s.mq = t.mq →
      (applyOutward mdl k s).q = (applyOutward mdl k t).q ∧
      (applyOutward mdl k s).mq = (applyOutward mdl k t).mq ∧
      (applyOutward mdl k s).scr.d_a = (applyOutward mdl k t).scr.d_a ∧
      (applyOutward mdl k s).scr.d_u = (applyOutward mdl k t).scr.d_u := by
  intro k
  induction k with
  | zero => intro s t ha hu hq hm; exact ⟨hq, hm, ha, hu⟩
  | succ k ih =>
    intro s t ha hu hq hm
    obtain ⟨ihq, ihm, iha, ihu⟩ := ih s t ha hu hq hm
    exact applyOutwardStep_indep mdl (k + 1) (applyOutward mdl k s)
      (applyOutward mdl k t) iha ihu ihq ihm

/-- The apply pass reads the entry values of `d_IA`, `d_U` and `d_d` only
after overwriting the range it uses: its QDDot output and model-qddot output
are determined by `fext`, the buffer, and the `d_pA`, `d_a`, `d_u` scratch. -/
theorem apply_indep {dof : ℕ} (env : DynEnv dof) (mdl : RBModel) (nb : ℕ)
    (fext : ℕ → SpatialVec) (s t : BodyScratch) (buf : Fin dof → ℚ)
    (hpA : s.d_pA = t.d_pA) (ha : s.d_a = t.d_a) (hu : s.d_u = t.d_u) :
    (ForwardDynamicsApplyConstraintForces env mdl nb fext s buf).1 =
      (ForwardDynamicsApplyConstraintForces env mdl nb fext t buf).1 ∧
    (ForwardDynamicsApplyConstraintForces env mdl nb fext s buf).2.2 =
      (ForwardDynamicsApplyConstraintForces env mdl nb fext t buf).2.2 := by
  have h0pA : (applyFirstPA env mdl nb fext s.d_pA) =
      (applyFirstPA env mdl nb fext t.d_pA) := by rw [hpA]
  have hin := applyInward_indep mdl nb (nb - 1)
    { s with d_pA := applyFirstPA env mdl nb fext s.d_pA
             d_IA := applyFirstIA mdl nb s.d_IA }
    { t with d_pA := applyFirstPA env mdl nb fext t.d_pA
             d_IA := applyFirstIA mdl nb t.d_IA }
    (by omega) h0pA hu ?hia
  case hia =>
    intro j hj1 hj2
    show applyFirstIA mdl nb s.d_IA j = applyFirstIA mdl nb t.d_IA j
    unfold applyFirstIA
    rw [if_pos ⟨hj1, hj2⟩, if_pos ⟨hj1, hj2⟩]
  have hinA : (applyInward mdl (nb - 1)
      { s with d_pA := applyFirstPA env mdl nb fext s.d_pA
               d_IA := applyFirstIA mdl nb s.d_IA }).d_a =
      (applyInward mdl (nb - 1)
      { t with d_pA := applyFirstPA env mdl nb fext t.d_pA
               d_IA := applyFirstIA mdl nb t.d_IA }).d_a := by
    rw [applyInward_d_a, applyInward_d_a]
    exact ha
  have hout := applyOutward_indep mdl (nb - 1)
    { scr := applyInward mdl (nb - 1)
        { s with d_pA := applyFirstPA env mdl nb fext s.d_pA
                 d_IA := applyFirstIA mdl nb s.d_IA }
      q := extendV dof buf, mq := mdl.qddot }
    { scr := applyInward mdl (nb - 1)
        { t with d_pA := applyFirstPA env mdl nb fext t.d_pA
                 d_IA := applyFirstIA mdl nb t.d_IA }
      q := extendV dof buf, mq := mdl.qddot }
    hinA hin.2 rfl rfl
  have hq : ∀ w : BodyScratch,
      (ForwardDynamicsApplyConstraintForces env mdl nb fext w buf).1 =
        fun j : Fin dof => (applyOutward mdl (nb - 1)
          { scr := applyInward mdl (nb - 1)
              { w with d_pA := applyFirstPA env mdl nb fext w.d_pA
                       d_IA := applyFirstIA mdl nb w.d_IA }
            q := extendV dof buf, mq := mdl.qddot }).q j.val :=
    fun _ => rfl
  have hmq : ∀ w : BodyScratch,
      (ForwardDynamicsApplyConstraintForces env mdl nb fext w buf).2.2 =
        (applyOutward mdl (nb - 1)
          { scr := applyInward mdl (nb - 1)
              { w with d_pA := applyFirstPA env mdl nb fext w.d_pA
                       d_IA := applyFirstIA mdl nb w.d_IA }
            q := extendV dof buf, mq := mdl.qddot }).mq :=
    fun _ => rfl
  constructor
  · rw [hq s, hq t]
    simp only [hout.1]
  · rw [hmq s, hmq t]
    exact hout.2.1

/-- The outputs of a compliance-engine solve are insensitive to the entry
values of the `d_IA`, `d_U` and `d_d` scratch of the ConstraintSet. -/
theorem fdc_outputs_scratch_indep {dof m : ℕ} (env : DynEnv dof)
    (mdl : RBModel) (nb : ℕ) (Q QDot Tau : Fin dof → ℚ)
    (cs : ConstraintSet dof m) (ia : ℕ → SpatialMat) (uu : ℕ → SpatialVec)
    (dd : ℕ → ℚ) (buf : Fin dof → ℚ) :
    (ForwardDynamicsContacts env mdl nb Q QDot Tau
        { cs with d_IA := ia, d_U := uu, d_d := dd } buf).QDDot =
      (ForwardDynamicsContacts env mdl nb Q QDot Tau cs buf).QDDot ∧
    (ForwardDynamicsContacts env mdl nb Q QDot Tau
        { cs with d_IA := ia, d_U := uu, d_d := dd } buf).cs.constraint_force =
      (ForwardDynamicsContacts env mdl nb Q QDot Tau cs buf).cs.constraint_force := by
  refine ⟨?_, rfl⟩
  exact (apply_indep env mdl nb
    (complianceFext env mdl nb Q QDot Tau cs)
    ⟨(complianceFold env mdl nb Q QDot Tau cs).ds.d_pA,
      (complianceFold env mdl nb Q QDot Tau cs).ds.d_a,
      (complianceFold env mdl nb Q QDot Tau cs).ds.d_u, ia, uu, dd⟩
    ⟨(complianceFold env mdl nb Q QDot Tau cs).ds.d_pA,
      (complianceFold env mdl nb Q QDot Tau cs).ds.d_a,
      (complianceFold env mdl nb Q QDot Tau cs).ds.d_u, cs.d_IA, cs.d_U, cs.d_d⟩
    buf rfl rfl rfl).1

/-- Claim C4, counterexample.  As stated the claim is false: `clear()` zeroes
the desired accelerations, so on a set registered with desired acceleration 3
the re-solve after a solve plus `clear()` returns constraint force 2 while the
solve on the freshly bound set returns -1. -/
theorem C4_counterexample :
    (ForwardDynamicsContacts envEx mdlEx 2 (zeroVec 1) (zeroVec 1)
        (fun _ => (2 : ℚ))
        ((ForwardDynamicsContacts envEx mdlEx 2 (zeroVec 1) (zeroVec 1)
            (fun _ => (2 : ℚ)) csEx (zeroVec 1)).cs.clear)
        (zeroVec 1)).cs.constraint_force 0 ≠
      (ForwardDynamicsContacts envEx mdlEx 2 (zeroVec 1) (zeroVec 1)
          (fun _ => (2 : ℚ)) csEx (zeroVec 1)).cs.constraint_force 0 := by
  norm_num [ForwardDynamicsContacts, ForwardDynamicsApplyConstraintForces,
    applyOutward, applyOutwardStep, applyInward, applyInwardStep, applyFirstPA,
    applyFirstIA, spatialGravity, complianceFext, complianceForce, complianceK,
    complianceFold, complianceARes, compliancePA0, complianceQDDot0, fdcStep,
    testForce, ForwardDynamicsAccelerationDeltas, deltasInward, deltasInwardStep,
    deltasOutward, deltasOutwardStep, selSolve, envEx, mdlEx, csEx, regEx,
    bindWorkspace, ConstraintSet.clear, zeroVec, zero3, vecZ, extendV,
    zeroSpatialArr, zeroScalArr, zeroSpatialFin, zeroVec3Fin, Matrix.mulVec,
    Matrix.dotProduct, Fin.sum_univ_succ, Function.update, Matrix.updateRow,
    List.finRange, List.foldl, Matrix.cons_val_zero, Matrix.cons_val_one,
    Matrix.head_cons, funext_iff, Fin.forall_fin_succ, Matrix.one_apply,
    Fin.ext_iff, Fin.val_succ, Fin.val_zero]

/-- Claim C4, amended: on a freshly registered set whose desired accelerations
(and initial force outputs) are all zero, re-solving after a solve followed by
`clear()` reproduces exactly the joint accelerations and constraint forces of
the solve on the freshly bound set: apart from the desired accelerations that
`clear()` wipes (forcing the zero-desired-acceleration hypothesis), no
workspace buffer carries state from one solve call into the next. -/
theorem C4_clear_reuse {dof m : ℕ} (env : DynEnv dof) (mdl : RBModel)
    (nb : ℕ) (Q QDot Tau : Fin dof → ℚ) (solver : LinSolver)
    (reg : ConstraintSetReg) (buf : Fin dof → ℚ)
    (h0 : ∀ i : Fin m, reg.constraint_acceleration.getD i 0 = 0)
    (h1 : ∀ i : Fin m, reg.constraint_force.getD i 0 = 0) :
    (ForwardDynamicsContacts env mdl nb Q QDot Tau
        ((ForwardDynamicsContacts env mdl nb Q QDot Tau
            (bindWorkspace dof m solver reg) buf).cs.clear) buf).QDDot =
      (ForwardDynamicsContacts env mdl nb Q QDot Tau
        (bindWorkspace dof m solver reg) buf).QDDot ∧
    (ForwardDynamicsContacts env mdl nb Q QDot Tau
        ((ForwardDynamicsContacts env mdl nb Q QDot Tau
            (bindWorkspace dof m solver reg) buf).cs.clear) buf).cs.constraint_force =
      (ForwardDynamicsContacts env mdl nb Q QDot Tau
        (bindWorkspace dof m solver reg) buf).cs.constraint_force := by
  have hcs : (ForwardDynamicsContacts env mdl nb Q QDot Tau
      (bindWorkspace dof m solver reg) buf).cs.clear =
      { bindWorkspace dof m solver reg with
        d_IA := (ForwardDynamicsContacts env mdl nb Q QDot Tau
          (bindWorkspace dof m solver reg) buf).cs.d_IA
        d_U := (ForwardDynamicsContacts env mdl nb Q QDot Tau
          (bindWorkspace dof m solver reg) buf).cs.d_U
        d_d := (ForwardDynamicsContacts env mdl nb Q QDot Tau
          (bindWorkspace dof m solver reg) buf).cs.d_d } := by
    refine ConstraintSet.ext rfl rfl rfl rfl rfl ?_ ?_ rfl rfl rfl rfl rfl rfl
      rfl rfl rfl rfl rfl rfl rfl rfl rfl rfl rfl rfl rfl rfl
    · funext i
      exact (h0 i).symm
    · funext i
      exact (h1 i).symm
  rw [hcs]
  exact fdc_outputs_scratch_indep env mdl nb Q QDot Tau
    (bindWorkspace dof m solver reg) _ _ _ buf

/-- Witness for C4 at the zero-desired-acceleration registry. -/
theorem C4_witness :
    (∀ i : Fin 1, regExZ.constraint_acceleration.getD i 0 = 0) ∧
    ((ForwardDynamicsContacts envEx mdlEx 2 (zeroVec 1) (zeroVec 1)
        (fun _ => (2 : ℚ))
        ((ForwardDynamicsContacts envEx mdlEx 2 (zeroVec 1) (zeroVec 1)
            (fun _ => (2 : ℚ)) (bindWorkspace 1 1 LinSolver.lu regExZ)
            (zeroVec 1)).cs.clear) (zeroVec 1)).QDDot =
      (ForwardDynamicsContacts envEx mdlEx 2 (zeroVec 1) (zeroVec 1)
        (fun _ => (2 : ℚ)) (bindWorkspace 1 1 LinSolver.lu regExZ)
        (zeroVec 1)).QDDot ∧
    (ForwardDynamicsContacts envEx mdlEx 2 (zeroVec 1) (zeroVec 1)
        (fun _ => (2 : ℚ))
        ((ForwardDynamicsContacts envEx mdlEx 2 (zeroVec 1) (zeroVec 1)
            (fun _ => (2 : ℚ)) (bindWorkspace 1 1 LinSolver.lu regExZ)
            (zeroVec 1)).cs.clear) (zeroVec 1)).cs.constraint_force =
      (ForwardDynamicsContacts envEx mdlEx 2 (zeroVec 1) (zeroVec 1)
        (fun _ => (2 : ℚ)) (bindWorkspace 1 1 LinSolver.lu regExZ)
        (zeroVec 1)).cs.constraint_force) :=
  ⟨by decide, C4_clear_reuse envEx mdlEx 2 (zeroVec 1) (zeroVec 1)
    (fun _ => (2 : ℚ)) LinSolver.lu regExZ (zeroVec 1) (by decide) (by decide)⟩

/-- Dotting with a coordinate-axis normal selects the corresponding
component. -/
theorem axisIndex_dot {n : Vec3} {k : Fin 3} (h : axisIndex n = some k)
    (v : Vec3) : n ⬝ᵥ v = v k := by
  unfold axisIndex at h
  by_cases h1 : n = vecX
  · rw [if_pos h1] at h
    obtain rfl : (0 : Fin 3) = k := Option.some.inj h
    subst h1
    simp [vecX, Matrix.dotProduct, Fin.sum_univ_succ]
  · rw [if_neg h1] at h
    by_cases h2 : n = vecY
    · rw [if_pos h2] at h
      obtain rfl : (1 : Fin 3) = k := Option.some.inj h
      subst h2
      simp [vecY, Matrix.dotProduct, Fin.sum_univ_succ]
    · rw [if_neg h2] at h
      by_cases h3 : n = vecZ
      · rw [if_pos h3] at h
        obtain rfl : (2 : Fin 3) = k := Option.some.inj h
        subst h3
        simp [vecZ, Matrix.dotProduct, Fin.sum_univ_succ]
      · rw [if_neg h3] at h
        exact Option.noConfusion h

/-- Closed form of the Jacobian caching loop: provided every contact body is
nonzero, each processed row holds the corresponding Jacobian row (the cache
always holds the Jacobian of its recorded `(body, point)` pair, and the
initial `prev_body_id = 0` can never be hit). -/
theorem jacRows_fold {dof m : ℕ} (env : DynEnv dof) (Q : Fin dof → ℚ)
    (bodyF : Fin m → ℕ) (pointF : Fin m → Vec3) (axF : Fin m → Fin 3) :
    ∀ (l : List (Fin m)) (st : JacCache dof × Matrix (Fin m) (Fin dof) ℚ),
      (st.1.prevBody ≠ 0 →
        st.1.Gi = env.pointJacobian Q st.1.prevBody st.1.prevPoint) →
      (∀ i ∈ l, bodyF i ≠ 0) →
      ∀ r : Fin m, (l.foldl (jacRowsStep env Q bodyF pointF axF) st).2 r =
        if r ∈ l then
          (fun j => env.pointJacobian Q (bodyF r) (pointF r) (axF r) j)
        else st.2 r := by
  intro l
  induction l with
  | nil =>
    intro st _ _ r
    simp
  | cons a l ih =>
    intro st hc hb r
    have hba : bodyF a ≠ 0 := hb a (List.mem_cons_self a l)
    have hc' : (jacRowsStep env Q bodyF pointF axF st a).1.prevBody ≠ 0 →
        (jacRowsStep env Q bodyF pointF axF st a).1.Gi =
          env.pointJacobian Q (jacRowsStep env Q bodyF pointF axF st a).1.prevBody
            (jacRowsStep env Q bodyF pointF axF st a).1.prevPoint := by
      unfold jacRowsStep
      by_cases hhit : st.1.prevBody = bodyF a ∧ st.1.prevPoint = pointF a
      · simp only [if_pos hhit]
        exact hc
      · simp only [if_neg hhit]
        intro _
        trivial
    have hrow : (jacRowsStep env Q bodyF pointF axF st a).2 =
        Matrix.updateRow st.2 a
          (fun j => env.pointJacobian Q (bodyF a) (pointF a) (axF a) j) := by
      unfold jacRowsStep
      by_cases hhit : st.1.prevBody = bodyF a ∧ st.1.prevPoint = pointF a
      · simp only [if_pos hhit]
        have h0 : st.1.prevBody ≠ 0 := by rw [hhit.1]; exact hba
        rw [hc h0, hhit.1, hhit.2]
      · simp only [if_neg hhit]
    show ((l.foldl _ (jacRowsStep env Q bodyF pointF axF st a)).2) r = _
    rw [ih (jacRowsStep env Q bodyF pointF axF st a) hc'
      (fun i hi => hb i (List.mem_cons_of_mem a hi)) r]
    by_cases hrl : r ∈ l
    · rw [if_pos hrl, if_pos (List.mem_cons_of_mem a hrl)]
    · rw [if_neg hrl, hrow]
      by_cases hra : r = a
      · subst hra
        rw [Matrix.updateRow_self, if_pos (List.mem_cons_self r l)]
      · rw [Matrix.updateRow_ne hra]
        have : r ∉ a :: l := by
          intro hmem
          rcases List.mem_cons.mp hmem with h | h
          · exact hra h
          · exact hrl h
        rw [if_neg this]

/-- Rows computed by the Lagrangian Jacobian loop equal the corresponding
Jacobian rows when every contact body is nonzero. -/
theorem jacRows_apply {dof m : ℕ} (env : DynEnv dof) (Q : Fin dof → ℚ)
    (bodyF : Fin m → ℕ) (pointF : Fin m → Vec3) (axF : Fin m → Fin 3)
    (hb : ∀ i, bodyF i ≠ 0) (r : Fin m) :
    jacRows env Q bodyF pointF axF r =
      fun j => env.pointJacobian Q (bodyF r) (pointF r) (axF r) j := by
  unfold jacRows
  rw [jacRows_fold env Q bodyF pointF axF (List.finRange m) _
    (fun h => absurd rfl h) (fun i _ => hb i) r,
    if_pos (List.mem_finRange r)]

/-- Closed form of the bias-acceleration caching loop, analogous to
`jacRows_fold`. -/
theorem gammaVals_fold {dof m : ℕ} (env : DynEnv dof)
    (Q QDot qdd : Fin dof → ℚ) (bodyF : Fin m → ℕ) (pointF : Fin m → Vec3)
    (axF : Fin m → Fin 3) (accelF : Fin m → ℚ) :
    ∀ (l : List (Fin m)) (st : AccCache × (Fin m → ℚ)),
      (st.1.prevBody ≠ 0 →
        st.1.acc = env.pointAccel Q QDot qdd st.1.prevBody st.1.prevPoint) →
      (∀ i ∈ l, bodyF i ≠ 0) →
      ∀ r : Fin m,
        (l.foldl (gammaStep env Q QDot qdd bodyF pointF axF accelF) st).2 r =
        if r ∈ l then
          env.pointAccel Q QDot qdd (bodyF r) (pointF r) (axF r) - accelF r
        else st.2 r := by
  intro l
  induction l with
  | nil =>
    intro st _ _ r
    simp
  | cons a l ih =>
    intro st hc hb r
    have hba : bodyF a ≠ 0 := hb a (List.mem_cons_self a l)
    have hc' : (gammaStep env Q QDot qdd bodyF pointF axF accelF st a).1.prevBody ≠ 0 →
        (gammaStep env Q QDot qdd bodyF pointF axF accelF st a).1.acc =
          env.pointAccel Q QDot qdd
            (gammaStep env Q QDot qdd bodyF pointF axF accelF st a).1.prevBody
            (gammaStep env Q QDot qdd bodyF pointF axF accelF st a).1.prevPoint := by
      unfold gammaStep
      by_cases hhit : st.1.prevBody = bodyF a ∧ st.1.prevPoint = pointF a
      · simp only [if_pos hhit]
        exact hc
      · simp only [if_neg hhit]
        intro _
        trivial
    have hrow : (gammaStep env Q QDot qdd bodyF pointF axF accelF st a).2 =
        Function.update st.2 a
          (env.pointAccel Q QDot qdd (bodyF a) (pointF a) (axF a) - accelF a) := by
      unfold gammaStep
      by_cases hhit : st.1.prevBody = bodyF a ∧ st.1.prevPoint = pointF a
      · simp only [if_pos hhit]
        have h0 : st.1.prevBody ≠ 0 := by rw [hhit.1]; exact hba
        rw [hc h0, hhit.1, hhit.2]
      · simp only [if_neg hhit]
    show ((l.foldl _ (gammaStep env Q QDot qdd bodyF pointF axF accelF st a)).2) r = _
    rw [ih (gammaStep env Q QDot qdd bodyF pointF axF accelF st a) hc'
      (fun i hi => hb i (List.mem_cons_of_mem a hi)) r]
    by_cases hrl : r ∈ l
    · rw [if_pos hrl, if_pos (List.mem_cons_of_mem a hrl)]
    · rw [if_neg hrl, hrow]
      by_cases hra : r = a
      · subst hra
        rw [Function.update_same, if_pos (List.mem_cons_self r l)]
      · rw [Function.update_noteq hra]
        have : r ∉ a :: l := by
          intro hmem
          rcases List.mem_cons.mp hmem with h | h
          · exact hra h
          · exact hrl h
        rw [if_neg this]

/-- Bias accelerations computed by the gamma loop equal the corresponding
axis components of the point accelerations when every body is nonzero. -/
theorem gammaVals_apply {dof m : ℕ} (env : DynEnv dof)
    (Q QDot qdd : Fin dof → ℚ) (bodyF : Fin m → ℕ) (pointF : Fin m → Vec3)
    (axF : Fin m → Fin 3) (accelF : Fin m → ℚ) (hb : ∀ i, bodyF i ≠ 0)
    (r : Fin m) :
    gammaVals env Q QDot qdd bodyF pointF axF accelF r =
      env.pointAccel Q QDot qdd (bodyF r) (pointF r) (axF r) - accelF r := by
  unfold gammaVals
  rw [gammaVals_fold env Q QDot qdd bodyF pointF axF accelF (List.finRange m) _
    (fun h => absurd rfl h) (fun i _ => hb i) r,
    if_pos (List.mem_finRange r)]

/-- The `d_a` component of the outward delta loop does not depend on the
QDDot_t buffer. -/
theorem deltasOutward_da_indep (mdl : RBModel) (du : ℕ → ℚ) :
    ∀ (k : ℕ) (q₁ q₂ : ℕ → ℚ) (da : ℕ → SpatialVec),
      (deltasOutward mdl du k (q₁, da)).2 = (deltasOutward mdl du k (q₂, da)).2 := by
  intro k
  induction k with
  | zero => intro q₁ q₂ da; rfl
  | succ k ih =>
    intro q₁ q₂ da
    have hstep : ∀ q : ℕ → ℚ, (deltasOutward mdl du (k + 1) (q, da)).2 =
        Function.update (deltasOutward mdl du k (q, da)).2 (k + 1)
          (fun r => mdl.XlApply (k + 1)
              ((deltasOutward mdl du k (q, da)).2 (mdl.lambda (k + 1))) r +
            mdl.S (k + 1) r * ((du (k + 1) - mdl.U (k + 1) ⬝ᵥ mdl.XlApply (k + 1)
              ((deltasOutward mdl du k (q, da)).2 (mdl.lambda (k + 1)))) / mdl.d (k + 1))) :=
      fun q => rfl
    rw [hstep q₁, hstep q₂, ih q₁ q₂ da]

/-- Entries the outward delta loop has written do not depend on the QDDot_t
buffer contents. -/
theorem deltasOutward_q_agree (mdl : RBModel) (du : ℕ → ℚ) :
    ∀ (k : ℕ) (q₁ q₂ : ℕ → ℚ) (da : ℕ → SpatialVec) (j : ℕ), j < k →
      (deltasOutward mdl du k (q₁, da)).1 j = (deltasOutward mdl du k (q₂, da)).1 j := by
  intro k
  induction k with
  | zero => intro q₁ q₂ da j hj; omega
  | succ k ih =>
    intro q₁ q₂ da j hj
    have hstep : ∀ q : ℕ → ℚ, (deltasOutward mdl du (k + 1) (q, da)).1 =
        Function.update (deltasOutward mdl du k (q, da)).1 k
          ((du (k + 1) - mdl.U (k + 1) ⬝ᵥ mdl.XlApply (k + 1)
            ((deltasOutward mdl du k (q, da)).2 (mdl.lambda (k + 1)))) / mdl.d (k + 1)) :=
      fun q => rfl
    rw [hstep q₁, hstep q₂, deltasOutward_da_indep mdl du k q₁ q₂ da]
    by_cases hjk : j = k
    · subst hjk
      rw [Function.update_same, Function.update_same]
    · rw [Function.update_noteq hjk, Function.update_noteq hjk]
      exact ih q₁ q₂ da j (by omega)

/-- ForwardDynamicsAccelerationDeltas is insensitive to the buffer contents on
the entries that the outward loop writes. -/
theorem FDAD_buffer_irrel {dof : ℕ} (env : DynEnv dof) (mdl : RBModel)
    (nb b : ℕ) (f : ℕ → SpatialVec) (buf₁ buf₂ : Fin dof → ℚ) (j : Fin dof)
    (hj : (j : ℕ) < nb - 1) :
    (ForwardDynamicsAccelerationDeltas env mdl nb b f buf₁).1 j =
      (ForwardDynamicsAccelerationDeltas env mdl nb b f buf₂).1 j := by
  have hdef : ∀ buf : Fin dof → ℚ,
      (ForwardDynamicsAccelerationDeltas env mdl nb b f buf).1 =
        fun j : Fin dof =>
          (deltasOutward mdl
            (deltasInward env mdl b f b ⟨fun _ _ => 0, fun _ _ => 0, fun _ => 0⟩).d_u
            (nb - 1)
            (Function.update (extendV dof buf) 0 0,
             Function.update (fun _ _ => 0) 0 (mdl.a 0))).1 j.val :=
    fun _ => rfl
  rw [hdef buf₁, hdef buf₂]
  exact deltasOutward_q_agree mdl _ (nb - 1) _ _ _ j.val hj

/-- The compliance matrix row written by one test-force iteration is the
canonical state-independent row value whenever the joint dimension fits the
body range (`dof ≤ nb - 1`): the delta pass reads the carried force array only
at the freshly written body entry and the carried buffer only outside the
written range. -/
theorem fdcStep_K {dof m : ℕ} (env : DynEnv dof) (mdl : RBModel) (nb : ℕ)
    (Q QDot qdd0 : Fin dof → ℚ) (bodyF : Fin m → ℕ) (pointF : Fin m → Vec3)
    (normalF : Fin m → Vec3) (pa0 : Fin m → Vec3) (hnb : dof ≤ nb - 1)
    (st : CCState dof m) (ci : Fin m) :
    (fdcStep env mdl nb Q QDot qdd0 bodyF pointF normalF pa0 st ci).K =
      Matrix.updateRow st.K ci
        (complianceKRow env mdl nb Q QDot qdd0 bodyF pointF normalF pa0 ci) := by
  have hq' : (fun j : Fin dof =>
      (ForwardDynamicsAccelerationDeltas env mdl nb (bodyF ci)
        (Function.update st.fext (bodyF ci)
          (testForce env Q (bodyF ci) (pointF ci) (normalF ci))) st.buf).1 j +
        qdd0 j) =
      (fun j : Fin dof =>
        deltasAt env mdl nb (bodyF ci)
          (testForce env Q (bodyF ci) (pointF ci) (normalF ci)) j + qdd0 j) := by
    funext j
    rw [FDAD_fext_congr env mdl nb (bodyF ci)
      (Function.update st.fext (bodyF ci)
        (testForce env Q (bodyF ci) (pointF ci) (normalF ci)))
      (Function.update zeroSpatialArr (bodyF ci)
        (testForce env Q (bodyF ci) (pointF ci) (normalF ci))) st.buf
      (by rw [Function.update_same, Function.update_same])]
    rw [FDAD_buffer_irrel env mdl nb (bodyF ci)
      (Function.update zeroSpatialArr (bodyF ci)
        (testForce env Q (bodyF ci) (pointF ci) (normalF ci))) st.buf
      (zeroVec dof) j (lt_of_lt_of_le j.isLt hnb)]
    rfl
  show Matrix.updateRow st.K ci
      (fun cj => normalF cj ⬝ᵥ
        (fun k => env.pointAccel Q QDot
          (fun j => (ForwardDynamicsAccelerationDeltas env mdl nb (bodyF ci)
            (Function.update st.fext (bodyF ci)
              (testForce env Q (bodyF ci) (pointF ci) (normalF ci))) st.buf).1 j +
            qdd0 j)
          (bodyF cj) (pointF cj) k - pa0 cj k)) = _
  rw [hq']
  rfl

/-- Closed form of the compliance matrix produced by the test-force loop. -/
theorem complianceFold_K {dof m : ℕ} (env : DynEnv dof) (mdl : RBModel)
    (nb : ℕ) (Q QDot qdd0 : Fin dof → ℚ) (bodyF : Fin m → ℕ)
    (pointF : Fin m → Vec3) (normalF : Fin m → Vec3) (pa0 : Fin m → Vec3)
    (hnb : dof ≤ nb - 1) :
    ∀ (l : List (Fin m)) (st : CCState dof m) (r : Fin m),
      ((l.foldl (fdcStep env mdl nb Q QDot qdd0 bodyF pointF normalF pa0) st).K) r =
      if r ∈ l then
        complianceKRow env mdl nb Q QDot qdd0 bodyF pointF normalF pa0 r
      else st.K r := by
  intro l
  induction l with
  | nil => intro st r; simp
  | cons a l ih =>
    intro st r
    show ((l.foldl _ (fdcStep env mdl nb Q QDot qdd0 bodyF pointF normalF pa0 st a)).K) r = _
    rw [ih (fdcStep env mdl nb Q QDot qdd0 bodyF pointF normalF pa0 st a) r]
    by_cases hrl : r ∈ l
    · rw [if_pos hrl, if_pos (List.mem_cons_of_mem a hrl)]
    · rw [if_neg hrl,
        fdcStep_K env mdl nb Q QDot qdd0 bodyF pointF normalF pa0 hnb st a]
      by_cases hra : r = a
      · subst hra
        rw [Matrix.updateRow_self, if_pos (List.mem_cons_self r l)]
      · rw [Matrix.updateRow_ne hra]
        have : r ∉ a :: l := by
          intro hmem
          rcases List.mem_cons.mp hmem with h | h
          · exact hra h
          · exact hrl h
        rw [if_neg this]

/-- The compliance matrix of a solve equals its canonical closed form. -/
theorem complianceK_rows {dof m : ℕ} (env : DynEnv dof) (mdl : RBModel)
    (nb : ℕ) (Q QDot Tau : Fin dof → ℚ) (CS : ConstraintSet dof m)
    (hnb : dof ≤ nb - 1) (r : Fin m) :
    complianceK env mdl nb Q QDot Tau CS r =
      complianceKRow env mdl nb Q QDot (complianceQDDot0 env Q QDot Tau)
        CS.body CS.point CS.normal
        (compliancePA0 env Q QDot Tau CS.body CS.point) r := by
  unfold complianceK complianceFold
  rw [complianceFold_K env mdl nb Q QDot (complianceQDDot0 env Q QDot Tau)
    CS.body CS.point CS.normal (compliancePA0 env Q QDot Tau CS.body CS.point)
    hnb (List.finRange m) _ r, if_pos (List.mem_finRange r)]

/-- For an axis normal, the generalized direction row is the corresponding
Jacobian row. -/
theorem gRow_axis {dof : ℕ} (env : DynEnv dof) (Q : Fin dof → ℚ) (b : ℕ)
    (p n : Vec3) {k : Fin 3} (h : axisIndex n = some k) (j : Fin dof) :
    gRow env Q b p n j = env.pointJacobian Q b p k j :=
  axisIndex_dot h _

/-- Difference of point accelerations dotted with a normal, under the affine
point-acceleration hypothesis. -/
theorem normal_dot_accel_diff {dof : ℕ} (env : DynEnv dof)
    (Q QDot : Fin dof → ℚ)
    (hL1 : ∀ (b : ℕ) (p : Vec3) (w : Fin dof → ℚ), env.pointAccel Q QDot w b p =
      fun k => ((env.pointJacobian Q b p).mulVec w) k +
        env.pointAccel Q QDot (zeroVec dof) b p k)
    (b : ℕ) (p n : Vec3) (v w : Fin dof → ℚ) :
    (n ⬝ᵥ fun k => env.pointAccel Q QDot v b p k - env.pointAccel Q QDot w b p k) =
      gRow env Q b p n ⬝ᵥ fun j => v j - w j := by
  have h1 : (fun k => env.pointAccel Q QDot v b p k - env.pointAccel Q QDot w b p k) =
      (env.pointJacobian Q b p).mulVec (fun j => v j - w j) := by
    funext k
    simp only [hL1 b p v, hL1 b p w]
    rw [show (fun j => v j - w j) = v - w from rfl, Matrix.mulVec_sub]
    simp only [Pi.sub_apply]
    ring
  rw [h1, Matrix.dotProduct_mulVec]
  have h2 : n ᵥ* env.pointJacobian Q b p = gRow env Q b p n := by
    funext j
    rfl
  rw [h2]

/-- Pairing symmetry through a symmetric matrix: if `H x = -u` and `H y = -v`
then `u . y = v . x`. -/
theorem g_delta_symm {dof : ℕ} (H : Matrix (Fin dof) (Fin dof) ℚ)
    (hHsym : Hᵀ = H) (x y u v : Fin dof → ℚ)
    (hx : H.mulVec x = fun j => -(u j)) (hy : H.mulVec y = fun j => -(v j)) :
    u ⬝ᵥ y = v ⬝ᵥ x := by
  have hu : u = fun j => -(H.mulVec x j) := by
    funext j
    rw [hx]
    ring
  rw [hu]
  have h1 : ((fun j => -(H.mulVec x j)) ⬝ᵥ y) = -(H.mulVec x ⬝ᵥ y) := by
    rw [show (fun j => -(H.mulVec x j)) = -(H.mulVec x) from rfl,
      Matrix.neg_dotProduct]
  rw [h1, Matrix.dotProduct_comm, Matrix.dotProduct_mulVec]
  have h2 : y ᵥ* H = H.mulVec y := by
    rw [← hHsym, Matrix.mulVec_transpose, hHsym]
  rw [h2, hy]
  have h3 : ((fun j => -(v j)) ⬝ᵥ x) = -(v ⬝ᵥ x) := by
    rw [show (fun j => -(v j)) = -v from rfl, Matrix.neg_dotProduct]
  rw [h3, neg_neg]

/-- A square rational matrix with nonzero determinant acts injectively. -/
theorem mulVec_inj {k : ℕ} (A : Matrix (Fin k) (Fin k) ℚ) (hdet : A.det ≠ 0)
    {x y : Fin k → ℚ} (h : A.mulVec x = A.mulVec y) : x = y := by
  have : Invertible A := A.invertibleOfIsUnitDet (isUnit_iff_ne_zero.mpr hdet)
  exact Matrix.mulVec_injective_of_invertible A h

/-- A matrix applied to a linear combination of vectors. -/
theorem mulVec_comb {k n : ℕ} (H : Matrix (Fin k) (Fin k) ℚ) (c : Fin n → ℚ)
    (vs : Fin n → Fin k → ℚ) :
    H.mulVec (fun j => ∑ i : Fin n, c i * vs i j) =
      fun j => ∑ i : Fin n, c i * H.mulVec (vs i) j := by
  funext j
  simp only [Matrix.mulVec, Matrix.dotProduct]
  calc (∑ l : Fin k, H j l * ∑ i : Fin n, c i * vs i l)
      = ∑ l : Fin k, ∑ i : Fin n, c i * (H j l * vs i l) := by
        refine Finset.sum_congr rfl fun l _ => ?_
        rw [Finset.mul_sum]
        refine Finset.sum_congr rfl fun i _ => ?_
        ring
    _ = ∑ i : Fin n, ∑ l : Fin k, c i * (H j l * vs i l) := Finset.sum_comm
    _ = ∑ i : Fin n, c i * ∑ l : Fin k, H j l * vs i l := by
        refine Finset.sum_congr rfl fun i _ => ?_
        rw [Finset.mul_sum]

/-- A vector dotted with a linear combination of vectors. -/
theorem dot_comb {k n : ℕ} (u : Fin k → ℚ) (c : Fin n → ℚ)
    (vs : Fin n → Fin k → ℚ) :
    (u ⬝ᵥ fun j => ∑ i : Fin n, c i * vs i j) =
      ∑ i : Fin n, c i * (u ⬝ᵥ vs i) := by
  simp only [Matrix.dotProduct]
  calc (∑ j : Fin k, u j * ∑ i : Fin n, c i * vs i j)
      = ∑ j : Fin k, ∑ i : Fin n, c i * (u j * vs i j) := by
        refine Finset.sum_congr rfl fun j _ => ?_
        rw [Finset.mul_sum]
        refine Finset.sum_congr rfl fun i _ => ?_
        ring
    _ = ∑ i : Fin n, ∑ j : Fin k, c i * (u j * vs i j) := Finset.sum_comm
    _ = ∑ i : Fin n, c i * ∑ j : Fin k, u j * vs i j := by
        refine Finset.sum_congr rfl fun i _ => ?_
        rw [Finset.mul_sum]

/-- Top block of the KKT equations: for each joint row, the mass-matrix part
plus the transposed-Jacobian part equals the applied-torque column. -/
theorem kkt_eq_top {dof m : ℕ} (env : DynEnv dof) (Q QDot Tau : Fin dof → ℚ)
    (CS : ConstraintSet dof m)
    (hsolveA : (lagrangianA env Q CS).mulVec (lagrangianX env Q QDot Tau CS) =
      lagrangianB env Q QDot Tau CS) (j : Fin dof) :
    (∑ l : Fin dof, env.crba Q j l * lagrangianX env Q QDot Tau CS (Fin.castAdd m l)) +
      (∑ i : Fin m, lagrangianG env Q CS i j * lagrangianX env Q QDot Tau CS (Fin.natAdd dof i)) =
      -(lagrangianC env Q QDot j) + Tau j := by
  have h := congrFun hsolveA (Fin.castAdd m j)
  simp only [Matrix.mulVec, Matrix.dotProduct, lagrangianA, lagrangianB,
    kktMatrix, kktRhs, Fin.sum_univ_add, Fin.addCases_left, Fin.addCases_right] at h
  exact h

/-- Bottom block of the KKT equations: for each constraint row, the Jacobian
applied to the joint accelerations equals minus gamma. -/
theorem kkt_eq_bottom {dof m : ℕ} (env : DynEnv dof) (Q QDot Tau : Fin dof → ℚ)
    (CS : ConstraintSet dof m)
    (hsolveA : (lagrangianA env Q CS).mulVec (lagrangianX env Q QDot Tau CS) =
      lagrangianB env Q QDot Tau CS) (i : Fin m) :
    (∑ l : Fin dof, lagrangianG env Q CS i l * lagrangianX env Q QDot Tau CS (Fin.castAdd m l)) =
      -(lagrangianGamma env Q QDot CS i) := by
  have h := congrFun hsolveA (Fin.natAdd dof i)
  simp only [Matrix.mulVec, Matrix.dotProduct, lagrangianA, lagrangianB,
    kktMatrix, kktRhs, Fin.sum_univ_add, Fin.addCases_left, Fin.addCases_right,
    zero_mul, Finset.sum_const_zero, add_zero] at h
  exact h

/-- The canonical compliance-matrix entry in generalized-direction form. -/
theorem complianceKRow_eq {dof m : ℕ} (env : DynEnv dof) (mdl : RBModel)
    (nb : ℕ) (Q QDot Tau : Fin dof → ℚ) (CS : ConstraintSet dof m)
    (hL1 : ∀ (b : ℕ) (p : Vec3) (w : Fin dof → ℚ), env.pointAccel Q QDot w b p =
      fun k => ((env.pointJacobian Q b p).mulVec w) k +
        env.pointAccel Q QDot (zeroVec dof) b p k)
    (r c : Fin m) :
    complianceKRow env mdl nb Q QDot (complianceQDDot0 env Q QDot Tau)
      CS.body CS.point CS.normal
      (compliancePA0 env Q QDot Tau CS.body CS.point) r c =
      gRow env Q (CS.body c) (CS.point c) (CS.normal c) ⬝ᵥ
        deltasAt env mdl nb (CS.body r)
          (testForce env Q (CS.body r) (CS.point r) (CS.normal r)) := by
  unfold complianceKRow compliancePA0
  rw [normal_dot_accel_diff env Q QDot hL1 (CS.body c) (CS.point c) (CS.normal c)]
  congr 1
  funext j
  ring

/-- Claim C1: for any model, state, torques and bound constraint set whose
normals are positive coordinate axes (attached to nonroot bodies, with the
joint dimension covered by the body range), with a symmetric nonsingular mass
matrix and a well-conditioned (nonsingular) compliance matrix, and with the
external dynamics collaborators satisfying their spec-level linear semantics
(affine point accelerations, forward dynamics solving the equations of
motion, the delta pass and the apply pass producing the accelerations induced
by the applied test forces) and the linear solvers exact on the two systems
they are given, the Dense KKT solver returns exactly the joint accelerations
and per-constraint forces of the Compliance/Superposition engine. -/
theorem C1_kkt_compliance_equiv {dof m : ℕ} (env : DynEnv dof) (mdl : RBModel)
    (nb : ℕ) (Q QDot Tau : Fin dof → ℚ) (CS : ConstraintSet dof m)
    (buf : Fin dof → ℚ)
    (hax : ∀ i : Fin m, (axisIndex (CS.normal i)).isSome)
    (hbody : ∀ i : Fin m, CS.body i ≠ 0)
    (hnb : dof ≤ nb - 1)
    (hHsym : (env.crba Q)ᵀ = env.crba Q)
    (hHdet : (env.crba Q).det ≠ 0)
    (hL1 : ∀ (b : ℕ) (p : Vec3) (w : Fin dof → ℚ), env.pointAccel Q QDot w b p =
      fun k => ((env.pointJacobian Q b p).mulVec w) k +
        env.pointAccel Q QDot (zeroVec dof) b p k)
    (hL2 : (env.crba Q).mulVec (env.fwdDyn Q QDot Tau) =
      fun j => Tau j - env.invDyn Q QDot (zeroVec dof) j)
    (hL3 : ∀ i : Fin m, (env.crba Q).mulVec
        (deltasAt env mdl nb (CS.body i)
          (testForce env Q (CS.body i) (CS.point i) (CS.normal i))) =
      fun j => -(gRow env Q (CS.body i) (CS.point i) (CS.normal i) j))
    (hL4 : (env.crba Q).mulVec
        (ForwardDynamicsContacts env mdl nb Q QDot Tau CS buf).QDDot =
      fun j => (Tau j - env.invDyn Q QDot (zeroVec dof) j) -
        ∑ i : Fin m, complianceForce env mdl nb Q QDot Tau CS i *
          gRow env Q (CS.body i) (CS.point i) (CS.normal i) j)
    (hsolveA : (lagrangianA env Q CS).mulVec (lagrangianX env Q QDot Tau CS) =
      lagrangianB env Q QDot Tau CS)
    (hsolveK : (complianceK env mdl nb Q QDot Tau CS).mulVec
        (complianceForce env mdl nb Q QDot Tau CS) =
      complianceARes env Q QDot Tau CS.body CS.point CS.normal
        CS.constraint_acceleration)
    (hKdet : (complianceK env mdl nb Q QDot Tau CS).det ≠ 0) :
    ForwardDynamicsContactsLagrangian env Q QDot Tau CS =
      some ((ForwardDynamicsContacts env mdl nb Q QDot Tau CS buf).QDDot,
        (ForwardDynamicsContacts env mdl nb Q QDot Tau CS buf).cs.constraint_force) := by
  have haxK : ∀ i : Fin m, axisIndex (CS.normal i) = some (axOf CS.normal i) := by
    intro i
    obtain ⟨k, hk⟩ := Option.isSome_iff_exists.mp (hax i)
    simp only [axOf, hk]
    rfl
  have hGg : ∀ (i : Fin m) (j : Fin dof), lagrangianG env Q CS i j =
      gRow env Q (CS.body i) (CS.point i) (CS.normal i) j := by
    intro i j
    simp only [lagrangianG]
    rw [congrFun (jacRows_apply env Q CS.body CS.point (axOf CS.normal) hbody i) j,
      gRow_axis env Q (CS.body i) (CS.point i) (CS.normal i) (haxK i) j]
  have hγ : ∀ i : Fin m, lagrangianGamma env Q QDot CS i =
      env.pointAccel Q QDot (zeroVec dof) (CS.body i) (CS.point i) (axOf CS.normal i) -
        CS.constraint_acceleration i := by
    intro i
    simp only [lagrangianGamma]
    exact gammaVals_apply env Q QDot (zeroVec dof) CS.body CS.point
      (axOf CS.normal) CS.constraint_acceleration hbody i
  have hE1 : (env.crba Q).mulVec
      (fun j => lagrangianX env Q QDot Tau CS (Fin.castAdd m j)) =
      fun j => (Tau j - lagrangianC env Q QDot j) -
        ∑ i : Fin m, lagrangianX env Q QDot Tau CS (Fin.natAdd dof i) *
          gRow env Q (CS.body i) (CS.point i) (CS.normal i) j := by
    funext j
    have h := kkt_eq_top env Q QDot Tau CS hsolveA j
    have hsum : (∑ i : Fin m, lagrangianG env Q CS i j *
        lagrangianX env Q QDot Tau CS (Fin.natAdd dof i)) =
        ∑ i : Fin m, lagrangianX env Q QDot Tau CS (Fin.natAdd dof i) *
          gRow env Q (CS.body i) (CS.point i) (CS.normal i) j := by
      refine Finset.sum_congr rfl fun i _ => ?_
      rw [hGg i j]
      ring
    rw [hsum] at h
    have hHj : (env.crba Q).mulVec
        (fun j2 => lagrangianX env Q QDot Tau CS (Fin.castAdd m j2)) j =
        ∑ l : Fin dof, env.crba Q j l *
          lagrangianX env Q QDot Tau CS (Fin.castAdd m l) := rfl
    rw [hHj]
    linarith [h]
  have hE2 : ∀ i : Fin m,
      (gRow env Q (CS.body i) (CS.point i) (CS.normal i) ⬝ᵥ
        fun j => lagrangianX env Q QDot Tau CS (Fin.castAdd m j)) =
      CS.constraint_acceleration i -
        env.pointAccel Q QDot (zeroVec dof) (CS.body i) (CS.point i)
          (axOf CS.normal i) := by
    intro i
    have h := kkt_eq_bottom env Q QDot Tau CS hsolveA i
    rw [hγ i] at h
    have hconv : (gRow env Q (CS.body i) (CS.point i) (CS.normal i) ⬝ᵥ
        fun j => lagrangianX env Q QDot Tau CS (Fin.castAdd m j)) =
        ∑ l : Fin dof, lagrangianG env Q CS i l *
          lagrangianX env Q QDot Tau CS (Fin.castAdd m l) := by
      simp only [Matrix.dotProduct]
      refine Finset.sum_congr rfl fun l _ => ?_
      rw [hGg i l]
    rw [hconv, h]
    ring
  have hHw : (env.crba Q).mulVec
      (fun j => ∑ i : Fin m, lagrangianX env Q QDot Tau CS (Fin.natAdd dof i) *
        deltasAt env mdl nb (CS.body i)
          (testForce env Q (CS.body i) (CS.point i) (CS.normal i)) j) =
      fun j => ∑ i : Fin m, lagrangianX env Q QDot Tau CS (Fin.natAdd dof i) *
        -(gRow env Q (CS.body i) (CS.point i) (CS.normal i) j) := by
    rw [mulVec_comb]
    funext j
    refine Finset.sum_congr rfl fun i _ => ?_
    rw [congrFun (hL3 i) j]
  have hw : (fun j => lagrangianX env Q QDot Tau CS (Fin.castAdd m j) -
      env.fwdDyn Q QDot Tau j) =
      fun j => ∑ i : Fin m, lagrangianX env Q QDot Tau CS (Fin.natAdd dof i) *
        deltasAt env mdl nb (CS.body i)
          (testForce env Q (CS.body i) (CS.point i) (CS.normal i)) j := by
    apply mulVec_inj (env.crba Q) hHdet
    rw [hHw]
    rw [show (fun j => lagrangianX env Q QDot Tau CS (Fin.castAdd m j) -
        env.fwdDyn Q QDot Tau j) =
      (fun j => lagrangianX env Q QDot Tau CS (Fin.castAdd m j)) -
        env.fwdDyn Q QDot Tau from rfl]
    rw [Matrix.mulVec_sub, hE1, hL2]
    funext j
    simp only [Pi.sub_apply]
    have hneg : (∑ i : Fin m, lagrangianX env Q QDot Tau CS (Fin.natAdd dof i) *
        -(gRow env Q (CS.body i) (CS.point i) (CS.normal i) j)) =
        -(∑ i : Fin m, lagrangianX env Q QDot Tau CS (Fin.natAdd dof i) *
          gRow env Q (CS.body i) (CS.point i) (CS.normal i) j) := by
      rw [← Finset.sum_neg_distrib]
      exact Finset.sum_congr rfl fun i _ => by ring
    rw [hneg]
    have hCeq : lagrangianC env Q QDot j = env.invDyn Q QDot (zeroVec dof) j := rfl
    rw [hCeq]
    ring
  have hKr : ∀ r c : Fin m, complianceK env mdl nb Q QDot Tau CS r c =
      gRow env Q (CS.body c) (CS.point c) (CS.normal c) ⬝ᵥ
        deltasAt env mdl nb (CS.body r)
          (testForce env Q (CS.body r) (CS.point r) (CS.normal r)) := by
    intro r c
    rw [congrFun (complianceK_rows env mdl nb Q QDot Tau CS hnb r) c]
    exact complianceKRow_eq env mdl nb Q QDot Tau CS hL1 r c
  have hKfL : (complianceK env mdl nb Q QDot Tau CS).mulVec
      (fun i => lagrangianX env Q QDot Tau CS (Fin.natAdd dof i)) =
      complianceARes env Q QDot Tau CS.body CS.point CS.normal
        CS.constraint_acceleration := by
    funext r
    show (∑ c : Fin m, complianceK env mdl nb Q QDot Tau CS r c *
      lagrangianX env Q QDot Tau CS (Fin.natAdd dof c)) = _
    have hswap : ∀ c : Fin m, complianceK env mdl nb Q QDot Tau CS r c =
        gRow env Q (CS.body r) (CS.point r) (CS.normal r) ⬝ᵥ
          deltasAt env mdl nb (CS.body c)
            (testForce env Q (CS.body c) (CS.point c) (CS.normal c)) := by
      intro c
      rw [hKr r c]
      exact g_delta_symm (env.crba Q) hHsym
        (deltasAt env mdl nb (CS.body c)
          (testForce env Q (CS.body c) (CS.point c) (CS.normal c)))
        (deltasAt env mdl nb (CS.body r)
          (testForce env Q (CS.body r) (CS.point r) (CS.normal r)))
        (gRow env Q (CS.body c) (CS.point c) (CS.normal c))
        (gRow env Q (CS.body r) (CS.point r) (CS.normal r))
        (hL3 c) (hL3 r)
    have hstep1 : (∑ c : Fin m, complianceK env mdl nb Q QDot Tau CS r c *
        lagrangianX env Q QDot Tau CS (Fin.natAdd dof c)) =
        ∑ c : Fin m, lagrangianX env Q QDot Tau CS (Fin.natAdd dof c) *
          (gRow env Q (CS.body r) (CS.point r) (CS.normal r) ⬝ᵥ
            deltasAt env mdl nb (CS.body c)
              (testForce env Q (CS.body c) (CS.point c) (CS.normal c))) := by
      refine Finset.sum_congr rfl fun c _ => ?_
      rw [hswap c]
      ring
    rw [hstep1, ← dot_comb (gRow env Q (CS.body r) (CS.point r) (CS.normal r))
      (fun c => lagrangianX env Q QDot Tau CS (Fin.natAdd dof c))
      (fun c => deltasAt env mdl nb (CS.body c)
        (testForce env Q (CS.body c) (CS.point c) (CS.normal c))), ← hw]
    rw [show (fun j => lagrangianX env Q QDot Tau CS (Fin.castAdd m j) -
        env.fwdDyn Q QDot Tau j) =
      (fun j => lagrangianX env Q QDot Tau CS (Fin.castAdd m j)) -
        env.fwdDyn Q QDot Tau from rfl]
    rw [Matrix.dotProduct_sub, hE2 r]
    have hpa : (CS.normal r ⬝ᵥ compliancePA0 env Q QDot Tau CS.body CS.point r) =
        gRow env Q (CS.body r) (CS.point r) (CS.normal r) ⬝ᵥ
          env.fwdDyn Q QDot Tau +
          env.pointAccel Q QDot (zeroVec dof) (CS.body r) (CS.point r)
            (axOf CS.normal r) := by
      unfold compliancePA0 complianceQDDot0
      rw [hL1 (CS.body r) (CS.point r) (env.fwdDyn Q QDot Tau)]
      rw [show (fun k =>
          ((env.pointJacobian Q (CS.body r) (CS.point r)).mulVec
            (env.fwdDyn Q QDot Tau)) k +
          env.pointAccel Q QDot (zeroVec dof) (CS.body r) (CS.point r) k) =
        (env.pointJacobian Q (CS.body r) (CS.point r)).mulVec
          (env.fwdDyn Q QDot Tau) +
        env.pointAccel Q QDot (zeroVec dof) (CS.body r) (CS.point r) from rfl]
      rw [Matrix.dotProduct_add, Matrix.dotProduct_mulVec]
      rw [axisIndex_dot (haxK r)]
      rfl
    show _ = complianceARes env Q QDot Tau CS.body CS.point CS.normal
      CS.constraint_acceleration r
    unfold complianceARes
    rw [hpa]
    ring
  have hf : (fun i => lagrangianX env Q QDot Tau CS (Fin.natAdd dof i)) =
      complianceForce env mdl nb Q QDot Tau CS :=
    mulVec_inj (complianceK env mdl nb Q QDot Tau CS) hKdet
      (hKfL.trans hsolveK.symm)
  have hq : (fun j => lagrangianX env Q QDot Tau CS (Fin.castAdd m j)) =
      (ForwardDynamicsContacts env mdl nb Q QDot Tau CS buf).QDDot := by
    apply mulVec_inj (env.crba Q) hHdet
    rw [hE1, hL4, ← hf]
    rfl
  rw [ForwardDynamicsContactsLagrangian, if_pos hax, hq, hf]
  rfl

/-- Witness for C1: on the concrete one-dof environment and two-body model,
with torque 2 and the single constraint of `csEx` (body 1, normal `(0,0,1)`,
desired acceleration 3), both engines return joint acceleration 3 and
constraint force -1, and the equivalence theorem applies. -/
theorem C1_witness :
    ForwardDynamicsContactsLagrangian envEx (zeroVec 1) (zeroVec 1)
        (fun _ => (2 : ℚ)) csEx =
      some ((ForwardDynamicsContacts envEx mdlEx 2 (zeroVec 1) (zeroVec 1)
          (fun _ => (2 : ℚ)) csEx (zeroVec 1)).QDDot,
        (ForwardDynamicsContacts envEx mdlEx 2 (zeroVec 1) (zeroVec 1)
          (fun _ => (2 : ℚ)) csEx (zeroVec 1)).cs.constraint_force) := by
  have hG : lagrangianG envEx (zeroVec 1) csEx 0 0 = 1 := by
    show jacRows envEx (zeroVec 1) csEx.body csEx.point (axOf csEx.normal) 0 0 = 1
    rw [congrFun (jacRows_apply envEx (zeroVec 1) csEx.body csEx.point
      (axOf csEx.normal) (by decide) 0) 0]
    rfl
  have hγ0 : lagrangianGamma envEx (zeroVec 1) (zeroVec 1) csEx 0 = -3 := by
    show gammaVals envEx (zeroVec 1) (zeroVec 1) (zeroVec 1) csEx.body csEx.point
      (axOf csEx.normal) csEx.constraint_acceleration 0 = -3
    rw [gammaVals_apply envEx (zeroVec 1) (zeroVec 1) (zeroVec 1) csEx.body
      csEx.point (axOf csEx.normal) csEx.constraint_acceleration (by decide) 0]
    show (0 : ℚ) - 3 = -3
    norm_num
  have hx0 : lagrangianX envEx (zeroVec 1) (zeroVec 1) (fun _ => (2 : ℚ)) csEx
      (Fin.castAdd 1 0) = 3 := rfl
  have hx1 : lagrangianX envEx (zeroVec 1) (zeroVec 1) (fun _ => (2 : ℚ)) csEx
      (Fin.natAdd 1 0) = -1 := rfl
  refine C1_kkt_compliance_equiv envEx mdlEx 2 (zeroVec 1) (zeroVec 1)
    (fun _ => (2 : ℚ)) csEx (zeroVec 1) (by decide) (by decide) (by decide)
    (by decide) ?_ ?_ ?_ ?_ ?_ ?_ ?_ ?_
  · show (1 : Matrix (Fin 1) (Fin 1) ℚ).det ≠ 0
    simp
  · intro b p w
    funext k
    simp [envEx, zeroVec, Matrix.mulVec, Matrix.dotProduct, Fin.sum_univ_one]
  · funext j
    obtain rfl : j = 0 := Subsingleton.elim j 0
    norm_num [envEx, zeroVec, Matrix.mulVec, Matrix.dotProduct,
      Fin.sum_univ_succ, Matrix.one_apply]
  · intro i
    obtain rfl : i = 0 := Subsingleton.elim i 0
    norm_num [deltasAt, gRow, testForce, ForwardDynamicsAccelerationDeltas,
      deltasInward, deltasInwardStep, deltasOutward, deltasOutwardStep, envEx,
      mdlEx, csEx, regEx, bindWorkspace, zeroVec, zero3, vecZ, extendV,
      zeroSpatialArr, Function.update, Matrix.mulVec, Matrix.dotProduct,
      Fin.sum_univ_succ, Matrix.cons_val_zero, Matrix.cons_val_one,
      Matrix.head_cons, Matrix.one_apply, Fin.ext_iff, Fin.val_succ,
      Fin.val_zero, funext_iff, Fin.forall_fin_succ]
  · norm_num [ForwardDynamicsContacts, ForwardDynamicsApplyConstraintForces,
      applyOutward, applyOutwardStep, applyInward, applyInwardStep, applyFirstPA,
      applyFirstIA, spatialGravity, complianceFext, complianceForce, complianceK,
      complianceFold, complianceARes, compliancePA0, complianceQDDot0, fdcStep,
      gRow, testForce, ForwardDynamicsAccelerationDeltas, deltasInward,
      deltasInwardStep, deltasOutward, deltasOutwardStep, selSolve, envEx, mdlEx,
      csEx, regEx, bindWorkspace, zeroVec, zero3, vecZ, extendV, zeroSpatialArr,
      Matrix.mulVec, Matrix.dotProduct, Fin.sum_univ_succ, Function.update,
      Matrix.updateRow, List.finRange, List.foldl, Matrix.cons_val_zero,
      Matrix.cons_val_one, Matrix.head_cons, funext_iff, Fin.forall_fin_succ,
      Matrix.one_apply, Fin.ext_iff, Fin.val_succ, Fin.val_zero]
  · funext r
    induction r using Fin.addCases with
    | left j =>
      obtain rfl : j = 0 := Subsingleton.elim j 0
      simp only [Matrix.mulVec, Matrix.dotProduct, lagrangianA, lagrangianB,
        kktMatrix, kktRhs, Fin.sum_univ_add, Fin.addCases_left,
        Fin.addCases_right, Fin.sum_univ_one]
      rw [hG, hx0, hx1]
      norm_num [lagrangianC, envEx, Matrix.one_apply]
    | right i =>
      obtain rfl : i = 0 := Subsingleton.elim i 0
      simp only [Matrix.mulVec, Matrix.dotProduct, lagrangianA, lagrangianB,
        kktMatrix, kktRhs, Fin.sum_univ_add, Fin.addCases_left,
        Fin.addCases_right, Fin.sum_univ_one, zero_mul, Finset.sum_const_zero,
        add_zero]
      rw [hG, hx0, hγ0]
      norm_num
  · norm_num [complianceForce, complianceK, complianceFold, complianceARes,
      compliancePA0, complianceQDDot0, fdcStep, testForce,
      ForwardDynamicsAccelerationDeltas, deltasInward, deltasInwardStep,
      deltasOutward, deltasOutwardStep, selSolve, envEx, mdlEx, csEx, regEx,
      bindWorkspace, zeroVec, zero3, vecZ, extendV, zeroSpatialArr,
      Matrix.mulVec, Matrix.dotProduct, Fin.sum_univ_succ, Function.update,
      Matrix.updateRow, List.finRange, List.foldl, Matrix.cons_val_zero,
      Matrix.cons_val_one, Matrix.head_cons, funext_iff, Fin.forall_fin_succ,
      Matrix.one_apply, Fin.ext_iff, Fin.val_succ, Fin.val_zero]
  · norm_num [Matrix.det_fin_one, complianceForce, complianceK, complianceFold,
      complianceARes, compliancePA0, complianceQDDot0, fdcStep, testForce,
      ForwardDynamicsAccelerationDeltas, deltasInward, deltasInwardStep,
      deltasOutward, deltasOutwardStep, selSolve, envEx, mdlEx, csEx, regEx,
      bindWorkspace, zeroVec, zero3, vecZ, extendV, zeroSpatialArr,
      Matrix.mulVec, Matrix.dotProduct, Fin.sum_univ_succ, Function.update,
      Matrix.updateRow, List.finRange, List.foldl, Matrix.cons_val_zero,
      Matrix.cons_val_one, Matrix.head_cons, Matrix.one_apply, Fin.ext_iff,
      Fin.val_succ, Fin.val_zero]

/-- One legacy test-force step from a zeroed external-force array: the array
is zeroed again on exit, the test force is recorded, and column `ci` of `K`
receives its canonical value. -/
theorem fdcOldStep_closed {dof m : ℕ} (env : DynEnv dof)
    (Q QDot Tau : Fin dof → ℚ) (cd : Fin m → ContactInfo) (st : OldState m)
    (hf : st.fext = zeroSpatialArr) (ci : Fin m) :
    fdcOldStep env Q QDot Tau cd (oldPA0 env Q QDot Tau cd) st ci =
      ⟨zeroSpatialArr,
       Function.update st.f_t ci
         (testForce env Q (cd ci).body_id (cd ci).point (cd ci).normal),
       Matrix.updateColumn st.K ci (oldKCol env Q QDot Tau cd ci)⟩ := by
  obtain ⟨sf, stf, sK⟩ := st
  simp only at hf
  subst hf
  simp only [fdcOldStep]
  have h2 : Function.update (Function.update zeroSpatialArr ((cd ci).body_id)
      (testForce env Q (cd ci).body_id (cd ci).point (cd ci).normal))
      ((cd ci).body_id) (fun _ => (0 : ℚ)) = zeroSpatialArr := by
    rw [Function.update_idem]
    exact Function.update_eq_self _ _
  rw [h2]
  rfl

/-- Closed form of the legacy test-force loop from any zero-force start:
the external-force array ends zeroed, each visited contact's test force is
recorded, and each visited column of `K` holds its canonical value. -/
theorem oldFold_closed {dof m : ℕ} (env : DynEnv dof)
    (Q QDot Tau : Fin dof → ℚ) (cd : Fin m → ContactInfo) :
    ∀ (l : List (Fin m)) (st : OldState m), st.fext = zeroSpatialArr →
      (l.foldl (fdcOldStep env Q QDot Tau cd (oldPA0 env Q QDot Tau cd)) st).fext =
          zeroSpatialArr ∧
      (∀ r, (l.foldl (fdcOldStep env Q QDot Tau cd (oldPA0 env Q QDot Tau cd)) st).f_t r =
          if r ∈ l then testForce env Q (cd r).body_id (cd r).point (cd r).normal
          else st.f_t r) ∧
      (∀ r c, (l.foldl (fdcOldStep env Q QDot Tau cd (oldPA0 env Q QDot Tau cd)) st).K r c =
          if c ∈ l then oldKCol env Q QDot Tau cd c r else st.K r c) := by
  intro l
  induction l with
  | nil =>
    intro st hf
    exact ⟨hf, fun r => by simp, fun r c => by simp⟩
  | cons a l ih =>
    intro st hf
    have hstep := fdcOldStep_closed env Q QDot Tau cd st hf a
    rw [List.foldl_cons, hstep]
    obtain ⟨h1, h2, h3⟩ := ih ⟨zeroSpatialArr,
      Function.update st.f_t a
        (testForce env Q (cd a).body_id (cd a).point (cd a).normal),
      Matrix.updateColumn st.K a (oldKCol env Q QDot Tau cd a)⟩ rfl
    refine ⟨h1, fun r => ?_, fun r c => ?_⟩
    · rw [h2 r]
      by_cases hrl : r ∈ l
      · rw [if_pos hrl, if_pos (List.mem_cons_of_mem a hrl)]
      · rw [if_neg hrl]
        show Function.update st.f_t a
          (testForce env Q (cd a).body_id (cd a).point (cd a).normal) r = _
        by_cases hra : r = a
        · subst hra
          rw [Function.update_same, if_pos (List.mem_cons_self r l)]
        · rw [Function.update_noteq hra]
          have hnm : r ∉ a :: l := by
            intro hmem
            rcases List.mem_cons.mp hmem with h | h
            · exact hra h
            · exact hrl h
          rw [if_neg hnm]
    · rw [h3 r c]
      by_cases hcl : c ∈ l
      · rw [if_pos hcl, if_pos (List.mem_cons_of_mem a hcl)]
      · rw [if_neg hcl]
        show Matrix.updateColumn st.K a (oldKCol env Q QDot Tau cd a) r c = _
        by_cases hca : c = a
        · subst hca
          rw [Matrix.updateColumn_self, if_pos (List.mem_cons_self c l)]
        · rw [Matrix.updateColumn_ne hca]
          have hnm : c ∉ a :: l := by
            intro hmem
            rcases List.mem_cons.mp hmem with h | h
            · exact hca h
            · exact hcl h
          rw [if_neg hnm]

/-- The test forces recorded by the legacy loop. -/
theorem oldFold_ft {dof m : ℕ} (env : DynEnv dof) (Q QDot Tau : Fin dof → ℚ)
    (cd : Fin m → ContactInfo) (r : Fin m) :
    (oldFold env Q QDot Tau cd).f_t r =
      testForce env Q (cd r).body_id (cd r).point (cd r).normal := by
  obtain ⟨-, h2, -⟩ := oldFold_closed env Q QDot Tau cd (List.finRange m)
    ⟨fun _ _ => 0, fun _ _ => 0, 0⟩ rfl
  show ((List.finRange m).foldl
    (fdcOldStep env Q QDot Tau cd (oldPA0 env Q QDot Tau cd))
    ⟨fun _ _ => 0, fun _ _ => 0, 0⟩).f_t r = _
  rw [h2 r, if_pos (List.mem_finRange r)]

/-- The compliance matrix of the legacy loop, entry by entry: entry `(r, c)`
holds the canonical value of column `c` at row `r`. -/
theorem oldFold_K {dof m : ℕ} (env : DynEnv dof) (Q QDot Tau : Fin dof → ℚ)
    (cd : Fin m → ContactInfo) (r c : Fin m) :
    (oldFold env Q QDot Tau cd).K r c = oldKCol env Q QDot Tau cd c r := by
  obtain ⟨-, -, h3⟩ := oldFold_closed env Q QDot Tau cd (List.finRange m)
    ⟨fun _ _ => 0, fun _ _ => 0, 0⟩ rfl
  show ((List.finRange m).foldl
    (fdcOldStep env Q QDot Tau cd (oldPA0 env Q QDot Tau cd))
    ⟨fun _ _ => 0, fun _ _ => 0, 0⟩).K r c = _
  rw [h3 r c, if_pos (List.mem_finRange c)]

/-- Pointwise value of the external-force accumulation loop. -/
theorem fextAccum_apply {m : ℕ} (cd : Fin m → ContactInfo)
    (tf : Fin m → SpatialVec) (c : Fin m → ℚ) :
    ∀ (l : List (Fin m)) (g : ℕ → SpatialVec) (n : ℕ) (k : Fin 6),
      (l.foldl (fun (g : ℕ → SpatialVec) ci =>
          Function.update g ((cd ci).body_id)
            (fun k2 => g ((cd ci).body_id) k2 + tf ci k2 * c ci)) g) n k =
        g n k +
          (l.map (fun j => if n = (cd j).body_id then tf j k * c j else 0)).sum := by
  intro l
  induction l with
  | nil =>
    intro g n k
    simp
  | cons a l ih =>
    intro g n k
    simp only [List.foldl_cons, List.map_cons, List.sum_cons]
    rw [ih]
    by_cases hn : n = (cd a).body_id
    · subst hn
      simp only [Function.update_same, ite_true, eq_self_iff_true]
      ring
    · rw [Function.update_noteq hn, if_neg hn]
      ring

/-- Accumulating with a single unit coefficient produces the single-entry
test-force array of that contact. -/
theorem fextAccum_single {m : ℕ} (cd : Fin m → ContactInfo)
    (tf : Fin m → SpatialVec) (i : Fin m) :
    fextAccumOf cd tf (fun j => if j = i then 1 else 0) =
      Function.update zeroSpatialArr ((cd i).body_id) (tf i) := by
  funext n k
  unfold fextAccumOf
  rw [fextAccum_apply cd tf (fun j => if j = i then 1 else 0) (List.finRange m)
    (fun _ _ => 0) n k]
  show (0 : ℚ) + _ = _
  rw [zero_add]
  have hmap : ((List.finRange m).map
      (fun j => if n = (cd j).body_id then tf j k * (if j = i then 1 else 0) else 0)).sum =
      ∑ j : Fin m, (if n = (cd j).body_id then tf j k * (if j = i then 1 else 0) else 0) :=
    (Fin.sum_univ_def _).symm
  rw [hmap]
  have hterm : ∀ j : Fin m,
      (if n = (cd j).body_id then tf j k * (if j = i then 1 else 0) else 0) =
      (if j = i then (if n = (cd i).body_id then tf i k else 0) else 0) := by
    intro j
    by_cases hj : j = i
    · subst hj
      simp
    · simp [hj]
  rw [Finset.sum_congr rfl fun j _ => hterm j,
    Finset.sum_ite_eq' Finset.univ i
      (fun _ => if n = (cd i).body_id then tf i k else 0),
    if_pos (Finset.mem_univ i)]
  by_cases hn : n = (cd i).body_id
  · subst hn
    rw [Function.update_same, if_pos rfl]
  · rw [Function.update_noteq hn, if_neg hn]
    rfl

/-- Claim C5: for any model, state, torques and contact list with axis
normals, any ConstraintSet holding the same constraints in the same order,
a symmetric nonsingular mass matrix, a nonsingular compliance matrix, the
spec-level linear semantics of the external dynamics collaborators (affine
point accelerations, forward dynamics with and without external forces
solving the equations of motion, the delta pass producing the accelerations
induced by the test forces) and both linear solvers exact on the compliance
systems they are given, the legacy free-function path
ForwardDynamicsContactsOld produces the same joint accelerations and the
same per-contact forces as the Registry-based engine
ForwardDynamicsContacts. -/
theorem C5_old_new_equiv {dof m : ℕ} (env : DynEnv dof) (mdl : RBModel)
    (nb : ℕ) (Q QDot Tau : Fin dof → ℚ) (cd : Fin m → ContactInfo)
    (CS : ConstraintSet dof m) (buf : Fin dof → ℚ)
    (hbody : ∀ i, CS.body i = (cd i).body_id)
    (hpoint : ∀ i, CS.point i = (cd i).point)
    (hnormal : ∀ i, CS.normal i = (cd i).normal)
    (haccel : ∀ i, CS.constraint_acceleration i = (cd i).acceleration)
    (hax : ∀ i : Fin m, (axisIndex ((cd i).normal)).isSome)
    (hnb : dof ≤ nb - 1)
    (hHsym : (env.crba Q)ᵀ = env.crba Q)
    (hHdet : (env.crba Q).det ≠ 0)
    (hL1 : ∀ (b : ℕ) (p : Vec3) (w : Fin dof → ℚ), env.pointAccel Q QDot w b p =
      fun k => ((env.pointJacobian Q b p).mulVec w) k +
        env.pointAccel Q QDot (zeroVec dof) b p k)
    (hL2 : (env.crba Q).mulVec (env.fwdDyn Q QDot Tau) =
      fun j => Tau j - env.invDyn Q QDot (zeroVec dof) j)
    (hL3 : ∀ i : Fin m, (env.crba Q).mulVec
        (deltasAt env mdl nb (CS.body i)
          (testForce env Q (CS.body i) (CS.point i) (CS.normal i))) =
      fun j => -(gRow env Q (CS.body i) (CS.point i) (CS.normal i) j))
    (hL4 : (env.crba Q).mulVec
        (ForwardDynamicsContacts env mdl nb Q QDot Tau CS buf).QDDot =
      fun j => (Tau j - env.invDyn Q QDot (zeroVec dof) j) -
        ∑ i : Fin m, complianceForce env mdl nb Q QDot Tau CS i *
          gRow env Q (CS.body i) (CS.point i) (CS.normal i) j)
    (HFDext : ∀ c : Fin m → ℚ, (env.crba Q).mulVec (env.fwdDynF Q QDot Tau
        (fextAccumOf cd
          (fun i => testForce env Q (cd i).body_id (cd i).point (cd i).normal) c)) =
      fun j => (Tau j - env.invDyn Q QDot (zeroVec dof) j) -
        ∑ i : Fin m, c i * gRow env Q (cd i).body_id (cd i).point (cd i).normal j)
    (hsolveKold : (oldFold env Q QDot Tau cd).K.mulVec
        (oldForce env Q QDot Tau cd) = oldARes env Q QDot Tau cd)
    (hsolveKnew : (complianceK env mdl nb Q QDot Tau CS).mulVec
        (complianceForce env mdl nb Q QDot Tau CS) =
      complianceARes env Q QDot Tau CS.body CS.point CS.normal
        CS.constraint_acceleration)
    (hKdet : (complianceK env mdl nb Q QDot Tau CS).det ≠ 0) :
    (ForwardDynamicsContactsOld env Q QDot Tau cd).1 =
      (ForwardDynamicsContacts env mdl nb Q QDot Tau CS buf).QDDot ∧
    ∀ ci, ((ForwardDynamicsContactsOld env Q QDot Tau cd).2 ci).force =
      (ForwardDynamicsContacts env mdl nb Q QDot Tau CS buf).cs.constraint_force ci := by
  simp only [hbody, hpoint, hnormal] at hL3 hL4
  have hsingle : ∀ i : Fin m, (env.crba Q).mulVec (oldQDDotT env Q QDot Tau cd i) =
      fun j => (Tau j - env.invDyn Q QDot (zeroVec dof) j) -
        gRow env Q (cd i).body_id (cd i).point (cd i).normal j := by
    intro i
    have h := HFDext (fun j => if j = i then 1 else 0)
    rw [fextAccum_single cd
      (fun i2 => testForce env Q (cd i2).body_id (cd i2).point (cd i2).normal) i] at h
    show (env.crba Q).mulVec (env.fwdDynF Q QDot Tau
      (Function.update zeroSpatialArr ((cd i).body_id)
        (testForce env Q (cd i).body_id (cd i).point (cd i).normal))) = _
    rw [h]
    funext j
    have hterm : ∀ i2 : Fin m,
        (if i2 = i then (1 : ℚ) else 0) *
          gRow env Q (cd i2).body_id (cd i2).point (cd i2).normal j =
        (if i2 = i then gRow env Q (cd i2).body_id (cd i2).point (cd i2).normal j
          else 0) := by
      intro i2
      by_cases h2 : i2 = i
      · rw [if_pos h2, if_pos h2, one_mul]
      · rw [if_neg h2, if_neg h2, zero_mul]
    rw [Finset.sum_congr rfl fun i2 _ => hterm i2,
      Finset.sum_ite_eq' Finset.univ i
        (fun i2 => gRow env Q (cd i2).body_id (cd i2).point (cd i2).normal j),
      if_pos (Finset.mem_univ i)]
  have hδ : ∀ i : Fin m,
      (fun j => oldQDDotT env Q QDot Tau cd i j - env.fwdDyn Q QDot Tau j) =
      deltasAt env mdl nb ((cd i).body_id)
        (testForce env Q (cd i).body_id (cd i).point (cd i).normal) := by
    intro i
    apply mulVec_inj (env.crba Q) hHdet
    rw [show (fun j => oldQDDotT env Q QDot Tau cd i j - env.fwdDyn Q QDot Tau j) =
      oldQDDotT env Q QDot Tau cd i - env.fwdDyn Q QDot Tau from rfl,
      Matrix.mulVec_sub, hsingle i, hL2, hL3 i]
    funext j
    simp only [Pi.sub_apply]
    ring
  have hKold : ∀ r c, (oldFold env Q QDot Tau cd).K r c =
      complianceK env mdl nb Q QDot Tau CS r c := by
    intro r c
    rw [oldFold_K env Q QDot Tau cd r c]
    have harr : (fun k => -(oldPA0 env Q QDot Tau cd r k) +
        env.pointAccel Q QDot (oldQDDotT env Q QDot Tau cd c)
          (cd r).body_id (cd r).point k) =
        (fun k => env.pointAccel Q QDot (oldQDDotT env Q QDot Tau cd c)
            (cd r).body_id (cd r).point k -
          env.pointAccel Q QDot (env.fwdDyn Q QDot Tau)
            (cd r).body_id (cd r).point k) := by
      funext k
      show -(env.pointAccel Q QDot (env.fwdDyn Q QDot Tau)
        (cd r).body_id (cd r).point k) + _ = _
      ring
    have hdiff : oldKCol env Q QDot Tau cd c r =
        gRow env Q (cd r).body_id (cd r).point (cd r).normal ⬝ᵥ
          (fun j => oldQDDotT env Q QDot Tau cd c j - env.fwdDyn Q QDot Tau j) := by
      show ((cd r).normal ⬝ᵥ (fun k => -(oldPA0 env Q QDot Tau cd r k) +
        env.pointAccel Q QDot (oldQDDotT env Q QDot Tau cd c)
          (cd r).body_id (cd r).point k)) = _
      rw [harr]
      exact normal_dot_accel_diff env Q QDot hL1 (cd r).body_id (cd r).point
        (cd r).normal (oldQDDotT env Q QDot Tau cd c) (env.fwdDyn Q QDot Tau)
    rw [hdiff, hδ c,
      g_delta_symm (env.crba Q) hHsym
        (deltasAt env mdl nb ((cd r).body_id)
          (testForce env Q (cd r).body_id (cd r).point (cd r).normal))
        (deltasAt env mdl nb ((cd c).body_id)
          (testForce env Q (cd c).body_id (cd c).point (cd c).normal))
        (gRow env Q (cd r).body_id (cd r).point (cd r).normal)
        (gRow env Q (cd c).body_id (cd c).point (cd c).normal)
        (hL3 r) (hL3 c),
      congrFun (complianceK_rows env mdl nb Q QDot Tau CS hnb r) c,
      complianceKRow_eq env mdl nb Q QDot Tau CS hL1 r c]
    simp only [hbody, hpoint, hnormal]
  have haRes : oldARes env Q QDot Tau cd =
      complianceARes env Q QDot Tau CS.body CS.point CS.normal
        CS.constraint_acceleration := by
    funext ci
    simp only [oldARes, complianceARes, compliancePA0, complianceQDDot0, oldPA0,
      hbody, hpoint, hnormal, haccel]
  have hKmat : (oldFold env Q QDot Tau cd).K =
      complianceK env mdl nb Q QDot Tau CS := by
    funext r c
    exact hKold r c
  have hforce : oldForce env Q QDot Tau cd =
      complianceForce env mdl nb Q QDot Tau CS := by
    apply mulVec_inj (complianceK env mdl nb Q QDot Tau CS) hKdet
    rw [hsolveKnew, ← hKmat, hsolveKold, haRes]
  have hft : (oldFold env Q QDot Tau cd).f_t =
      fun i => testForce env Q (cd i).body_id (cd i).point (cd i).normal := by
    funext r
    exact oldFold_ft env Q QDot Tau cd r
  have hq : (ForwardDynamicsContactsOld env Q QDot Tau cd).1 =
      (ForwardDynamicsContacts env mdl nb Q QDot Tau CS buf).QDDot := by
    apply mulVec_inj (env.crba Q) hHdet
    show (env.crba Q).mulVec (env.fwdDynF Q QDot Tau
      (fextAccumOf cd (oldFold env Q QDot Tau cd).f_t
        (oldForce env Q QDot Tau cd))) = _
    rw [hft, HFDext (oldForce env Q QDot Tau cd), hL4, hforce]
  refine ⟨hq, fun ci => ?_⟩
  show oldForce env Q QDot Tau cd ci = complianceForce env mdl nb Q QDot Tau CS ci
  exact congrFun hforce ci

/-- Witness for C5 at the concrete instance: the legacy path and the new
engine both return joint acceleration 3 and contact force -1. -/
theorem C5_witness :
    (ForwardDynamicsContactsOld envEx (zeroVec 1) (zeroVec 1)
        (fun _ => (2 : ℚ)) cdEx).1 =
      (ForwardDynamicsContacts envEx mdlEx 2 (zeroVec 1) (zeroVec 1)
        (fun _ => (2 : ℚ)) csEx (zeroVec 1)).QDDot ∧
    ∀ ci, ((ForwardDynamicsContactsOld envEx (zeroVec 1) (zeroVec 1)
        (fun _ => (2 : ℚ)) cdEx).2 ci).force =
      (ForwardDynamicsContacts envEx mdlEx 2 (zeroVec 1) (zeroVec 1)
        (fun _ => (2 : ℚ)) csEx (zeroVec 1)).cs.constraint_force ci := by
  have h5 : (![0, 0, 0, 0, 0, -1] : SpatialVec) 5 = -1 := rfl
  refine C5_old_new_equiv envEx mdlEx 2 (zeroVec 1) (zeroVec 1)
    (fun _ => (2 : ℚ)) cdEx csEx (zeroVec 1) (by decide) (by decide) (by decide)
    (by decide) (by decide) (by decide) (by decide) ?_ ?_ ?_ ?_ ?_ ?_ ?_ ?_ ?_
  · show (1 : Matrix (Fin 1) (Fin 1) ℚ).det ≠ 0
    simp
  · intro b p w
    funext k
    simp [envEx, zeroVec, Matrix.mulVec, Matrix.dotProduct, Fin.sum_univ_one]
  · funext j
    obtain rfl : j = 0 := Subsingleton.elim j 0
    norm_num [envEx, zeroVec, Matrix.mulVec, Matrix.dotProduct,
      Fin.sum_univ_succ, Matrix.one_apply]
  · intro i
    obtain rfl : i = 0 := Subsingleton.elim i 0
    norm_num [deltasAt, gRow, testForce, ForwardDynamicsAccelerationDeltas,
      deltasInward, deltasInwardStep, deltasOutward, deltasOutwardStep, envEx,
      mdlEx, csEx, regEx, bindWorkspace, zeroVec, zero3, vecZ, extendV,
      zeroSpatialArr, Function.update, Matrix.mulVec, Matrix.dotProduct,
      Fin.sum_univ_succ, Matrix.cons_val_zero, Matrix.cons_val_one,
      Matrix.head_cons, Matrix.one_apply, Fin.ext_iff, Fin.val_succ,
      Fin.val_zero, funext_iff, Fin.forall_fin_succ]
  · norm_num [ForwardDynamicsContacts, ForwardDynamicsApplyConstraintForces,
      applyOutward, applyOutwardStep, applyInward, applyInwardStep, applyFirstPA,
      applyFirstIA, spatialGravity, complianceFext, complianceForce, complianceK,
      complianceFold, complianceARes, compliancePA0, complianceQDDot0, fdcStep,
      gRow, testForce, ForwardDynamicsAccelerationDeltas, deltasInward,
      deltasInwardStep, deltasOutward, deltasOutwardStep, selSolve, envEx, mdlEx,
      csEx, regEx, bindWorkspace, zeroVec, zero3, vecZ, extendV, zeroSpatialArr,
      Matrix.mulVec, Matrix.dotProduct, Fin.sum_univ_succ, Function.update,
      Matrix.updateRow, List.finRange, List.foldl, Matrix.cons_val_zero,
      Matrix.cons_val_one, Matrix.head_cons, funext_iff, Fin.forall_fin_succ,
      Matrix.one_apply, Fin.ext_iff, Fin.val_succ, Fin.val_zero]
  · intro c
    funext j
    obtain rfl : j = 0 := Subsingleton.elim j 0
    norm_num [h5, fextAccumOf, testForce, gRow, envEx, cdEx, zero3, vecZ, zeroVec,
      zeroSpatialArr, Function.update, Matrix.mulVec, Matrix.dotProduct,
      Fin.sum_univ_succ, List.finRange, List.foldl, Matrix.cons_val_zero,
      Matrix.cons_val_one, Matrix.head_cons, Matrix.one_apply, Fin.ext_iff,
      Fin.val_succ, Fin.val_zero]
    ring
  · norm_num [h5, oldForce, oldFold, fdcOldStep, oldARes, oldPA0, testForce, envEx,
      cdEx, zero3, vecZ, zeroVec, zeroSpatialArr, Function.update,
      Matrix.updateColumn, Matrix.mulVec, Matrix.dotProduct, Fin.sum_univ_succ,
      List.finRange, List.foldl, Matrix.cons_val_zero, Matrix.cons_val_one,
      Matrix.head_cons, Matrix.one_apply, Fin.ext_iff, Fin.val_succ,
      Fin.val_zero, funext_iff, Fin.forall_fin_succ]
  · norm_num [complianceForce, complianceK, complianceFold, complianceARes,
      compliancePA0, complianceQDDot0, fdcStep, testForce,
      ForwardDynamicsAccelerationDeltas, deltasInward, deltasInwardStep,
      deltasOutward, deltasOutwardStep, selSolve, envEx, mdlEx, csEx, regEx,
      bindWorkspace, zeroVec, zero3, vecZ, extendV, zeroSpatialArr,
      Matrix.mulVec, Matrix.dotProduct, Fin.sum_univ_succ, Function.update,
      Matrix.updateRow, List.finRange, List.foldl, Matrix.cons_val_zero,
      Matrix.cons_val_one, Matrix.head_cons, funext_iff, Fin.forall_fin_succ,
      Matrix.one_apply, Fin.ext_iff, Fin.val_succ, Fin.val_zero]
  · norm_num [Matrix.det_fin_one, complianceForce, complianceK, complianceFold,
      complianceARes, compliancePA0, complianceQDDot0, fdcStep, testForce,
      ForwardDynamicsAccelerationDeltas, deltasInward, deltasInwardStep,
      deltasOutward, deltasOutwardStep, selSolve, envEx, mdlEx, csEx, regEx,
      bindWorkspace, zeroVec, zero3, vecZ, extendV, zeroSpatialArr,
      Matrix.mulVec, Matrix.dotProduct, Fin.sum_univ_succ, Function.update,
      Matrix.updateRow, List.finRange, List.foldl, Matrix.cons_val_zero,
      Matrix.cons_val_one, Matrix.head_cons, Matrix.one_apply, Fin.ext_iff,
      Fin.val_succ, Fin.val_zero]

end RBDLContacts
